import Mathlib

/-!
Verification development for the webui session transport and history
reconciliation engine (src/code-rs/webui/src/app/App.vue and the rollout
parser module).  The TypeScript code is shallowly embedded: JSON message
envelopes become structures whose optional fields are Option values,
JavaScript Sets become duplicate-free lists, numbers carrying conversation
indices become Int, and the reactive refs of the component become fields of
one explicit EngineState record.  Modelling conventions, applied uniformly:

* an absent or null JSON field is none; a present string field is some s;
* text payload fields that the code renders with asText are modelled as the
  already-rendered string (asText of a string is the string itself, and the
  JSON serialization of an object payload is carried in a selfText field);
* JavaScript truthiness on strings (empty string is falsy) is modelled
  explicitly wherever the code relies on it;
* nested msg objects are either absent or objects (the code only ever
  receives JSON envelopes whose msg, message and event fields are objects);
* Math.max(0, n - 1) on a counter that never goes below zero is Nat
  subtraction;
* the random id suffix of locally created reasoning entries is modelled by
  a monotonic localSeq counter, following the design note of the spec that
  prescribes exactly this deterministic replacement;
* timers are modelled as Option fields holding the scheduled delay and, for
  the prime-fill timer, the request its callback will send.
-/

namespace CodeWebui

/-- JavaScript truthiness for an optional string: null, undefined and the
empty string are falsy. -/
def strTruthy (o : Option String) : Bool :=
  match o with
  | some s => s ≠ ""
  | none => false

/-- Normalize an optional string by JavaScript truthiness: an empty string
becomes none. -/
def truthyStr (o : Option String) : Option String :=
  match o with
  | some s => if s = "" then none else some s
  | none => none

/-- The JavaScript expression a OR b on two optional strings: the first
truthy operand, none if both are falsy. -/
def strOr (a b : Option String) : Option String :=
  match truthyStr a with
  | some s => some s
  | none => truthyStr b

/-- Render an optional string the way asText renders it: absent values
become the empty string. -/
def optStr (a : Option String) : String := a.getD ""

/-- Insert a key into a JavaScript Set of strings modelled as a
duplicate-free list. -/
def addUnique (l : List String) (k : String) : List String :=
  if k ∈ l then l else l ++ [k]

/-- Insert an index into a JavaScript Set of numbers modelled as a
duplicate-free list. -/
def addUniqueInt (l : List Int) (i : Int) : List Int :=
  if i ∈ l then l else l ++ [i]

/-- An event message object (the msg field of an event payload).  Every
field the code reads is present; string-ish payload fields carry the string
the code would obtain from asText, selfText carries the JSON serialization
of the whole object for the asText(msg) fallbacks. -/
structure Msg where
  type : Option String := none
  message : Option String := none
  text : Option String := none
  delta : Option String := none
  reason : Option String := none
  eventText : Option String := none
  command : Option String := none
  chunk : Option String := none
  stream : Option String := none
  stdout : Option String := none
  stderr : Option String := none
  exitCode : Option String := none
  unifiedDiff : Option String := none
  path : Option String := none
  query : Option String := none
  url : Option String := none
  screenshotPath : Option String := none
  toolName : Option String := none
  invocationServer : Option String := none
  invocationTool : Option String := none
  selfText : String := ""
  deriving DecidableEq, Repr

/-- One content segment of a response_item message payload. -/
structure Segment where
  type : String := ""
  text : Option String := none
  refusal : Option String := none
  imageUrl : Option String := none
  url : Option String := none
  deriving DecidableEq, Repr

/-- One entry of the summary array of a reasoning response_item payload. -/
structure SummaryItem where
  text : Option String := none
  deriving DecidableEq, Repr

/-- A history line or event payload object.  id is some s exactly when the
JSON field is a string; eventSeq is the String() rendering of event_seq when
that field is neither null nor undefined.  msg, message and eventMsg are the
nested message objects; self is the payload object itself viewed as a
message (the parse fallback msg = payload), so self.type is the payload's
own type field, used by the response_item dispatch as well.  role, content,
name, arguments, output, summary and contentStr are the response_item
fields. -/
structure Payload where
  id : Option String := none
  eventSeq : Option String := none
  msg : Option Msg := none
  message : Option Msg := none
  eventMsg : Option Msg := none
  self : Msg := {}
  role : Option String := none
  content : Option (List Segment) := none
  contentStr : Option String := none
  name : Option String := none
  arguments : Option String := none
  output : Option String := none
  summary : Option (List SummaryItem) := none
  deriving DecidableEq, Repr

/-- A rollout entry: either a history line's own (type, payload) or the
object stored in its value field. -/
structure RolloutEntry where
  type : String := ""
  payload : Payload := {}
  deriving DecidableEq, Repr

/-- A wire history line: index, type, payload, and the optional nested
value object. -/
structure HistoryLine where
  index : Option Int := none
  type : String := ""
  payload : Payload := {}
  value : Option RolloutEntry := none
  deriving DecidableEq, Repr

/-- extractEntry from the rollout module: line.value or the line itself. -/
def extractEntry (line : HistoryLine) : RolloutEntry :=
  line.value.getD { type := line.type, payload := line.payload }

/-- One renderable timeline item, as produced by the rollout parser and the
live event path. -/
structure TimelineItem where
  id : String := ""
  kind : String := ""
  subkind : Option String := none
  title : Option String := none
  text : Option String := none
  imageUrl : Option String := none
  meta : Option String := none
  index : Option Int := none
  eventKey : Option String := none
  origin : Option String := none
  deriving DecidableEq, Repr

/-- eventKeyFromPayload: null unless the payload has a truthy string id or
a non-null event_seq; otherwise the id and the rendered sequence joined by
a colon.  The identical function appears in both the rollout module and
App.vue; this single definition embeds both copies. -/
def eventKeyFromPayload (payload : Payload) : Option String :=
  let id := optStr payload.id
  if id = "" ∧ payload.eventSeq = none then none
  else some (id ++ ":" ++ optStr payload.eventSeq)

/-- makeId from the rollout parser: the index (or the word unknown) joined
with the branch suffix. -/
def makeId (index : Option Int) (suffix : String) : String :=
  (match index with
   | some i => toString i
   | none => "unknown") ++ "-" ++ suffix

/-- roleToKind from the rollout parser. -/
def roleToKind (role : Option String) : String :=
  match role with
  | some "assistant" => "assistant"
  | some "user" => "user"
  | some "system" => "system"
  | some "developer" => "system"
  | some "tool" => "tool"
  | _ => "assistant"

/-- summarizePayload from the rollout parser: the nonempty texts of the
summary array joined by blank lines, else a string content field, else
empty. -/
def summarizePayload (p : Payload) : String :=
  let fromSummary :=
    match p.summary with
    | some arr =>
      let lines := (arr.map (fun it => optStr it.text)).filter (fun s => s ≠ "")
      if lines.isEmpty then none else some (String.intercalate "\n\n" lines)
    | none => none
  match fromSummary with
  | some s => s
  | none =>
    match p.contentStr with
    | some s => s
    | none => ""

/-- replace underscores by spaces, the msgType.replace rendering used for
titles. -/
def underscoresToSpaces (s : String) : String :=
  String.map (fun c => if c = '_' then ' ' else c) s

/-- The signature the parser dedups on: index, kind, subkind, title, text
(or an override) and image url joined by double colons. -/
def signatureFor (item : TimelineItem) (textOverride : Option String) : String :=
  String.intercalate "::"
    [(match item.index with
      | some i => toString i
      | none => ""),
     item.kind, optStr item.subkind, optStr item.title,
     (match textOverride with
      | some t => t
      | none => optStr item.text),
     optStr item.imageUrl]

/-- Accumulator of the rollout parser: the items built so far and the set
of signatures already pushed. -/
structure ParseState where
  items : List TimelineItem := []
  seen : List String := []
  deriving DecidableEq, Repr

/-- pushUnique from the rollout parser: drop the item if its signature was
already pushed. -/
def pushUnique (st : ParseState) (item : TimelineItem) : ParseState :=
  let signature := signatureFor item none
  if signature ∈ st.seen then st
  else { items := st.items ++ [item], seen := st.seen ++ [signature] }

/-- The msg resolution of the parser: payload.msg, else payload.message,
else payload.event, else the payload object itself. -/
def resolveParseMsg (p : Payload) : Msg :=
  match p.msg with
  | some m => m
  | none =>
    match p.message with
    | some m => m
    | none =>
      match p.eventMsg with
      | some m => m
      | none => p.self

/-- The msg resolution used by registerHistoryLines: payload.msg, else
payload.message, else payload.event, with no self fallback. -/
def resolveRegisterMsg (p : Payload) : Option Msg :=
  match p.msg with
  | some m => some m
  | none =>
    match p.message with
    | some m => some m
    | none => p.eventMsg

/-- The non-reasoning event branches of the rollout parser, in source
order; returns the single item a branch would push, none for reasoning
types (handled by the caller, where they sit between the task and exec
branches in the source) and for unknown types. -/
def parseEventSimpleItem (index : Option Int) (eventKey : Option String)
    (msgType : String) (msg : Msg) : Option TimelineItem :=
  if msgType = "user_message" then
    some { id := makeId index "user", kind := "user", subkind := some "message",
           title := some "You", text := some (optStr msg.message),
           index := index, eventKey := eventKey }
  else if msgType = "agent_message" then
    some { id := makeId index "assistant", kind := "assistant",
           subkind := some "message", title := some "Assistant",
           text := some (optStr msg.message), index := index, eventKey := eventKey }
  else if msgType = "task_started" ∨ msgType = "task_complete" ∨ msgType = "turn_aborted" then
    some { id := makeId index "task", kind := "system", subkind := some "message",
           title := some (underscoresToSpaces msgType),
           text := some ((strOr msg.message msg.reason).getD msg.selfText),
           index := index, eventKey := eventKey }
  else if msgType = "exec_command_begin" then
    some { id := makeId index "exec-start", kind := "exec",
           subkind := some "exec-begin", title := some "Exec",
           text := some (optStr msg.command), meta := some "running",
           index := index, eventKey := eventKey }
  else if msgType = "exec_command_output_delta" then
    some { id := makeId index "exec-output", kind := "exec",
           subkind := some "exec-output", title := some "Exec output",
           text := some (optStr msg.chunk), meta := some (optStr msg.stream),
           index := index, eventKey := eventKey }
  else if msgType = "exec_command_end" then
    some { id := makeId index "exec-end", kind := "exec",
           subkind := some "exec-end", title := some "Exec result",
           text := some ((strOr msg.stderr msg.stdout).getD ""),
           meta := some ("exit " ++ (match msg.exitCode with
             | some c => c
             | none => "?")),
           index := index, eventKey := eventKey }
  else if msgType = "turn_diff" then
    some { id := makeId index "diff", kind := "diff", subkind := some "diff",
           title := some "Diff", text := some (optStr msg.unifiedDiff),
           index := index, eventKey := eventKey }
  else if msgType = "patch_apply_begin" ∨ msgType = "patch_apply_end" then
    some { id := makeId index "patch", kind := "diff", subkind := some "diff",
           title := some (if msgType = "patch_apply_begin" then "Apply patch" else "Patch applied"),
           text := some ((strOr msg.path msg.message).getD msg.selfText),
           index := index, eventKey := eventKey }
  else if msgType = "background_event" then
    some { id := makeId index "background", kind := "system",
           subkind := some "message", title := some "Background event",
           text := some ((strOr msg.message msg.eventText).getD msg.selfText),
           index := index, eventKey := eventKey }
  else if msgType = "web_search_begin" ∨ msgType = "web_search_complete" then
    some { id := makeId index "web", kind := "tool", subkind := some "tool-web",
           title := some (if msgType = "web_search_begin" then "Web search" else "Web search complete"),
           text := some (optStr msg.query), index := index, eventKey := eventKey }
  else if msgType = "browser_screenshot_update" then
    some { id := makeId index "browser", kind := "tool",
           subkind := some "tool-browser", title := some "Browser screenshot",
           text := some ((strOr msg.url msg.screenshotPath).getD ""),
           index := index, eventKey := eventKey }
  else if msgType = "mcp_tool_call_begin" ∨ msgType = "mcp_tool_call_end" then
    some { id := makeId index "mcp", kind := "tool", subkind := some "tool-mcp",
           title := some (if msgType = "mcp_tool_call_begin" then "MCP tool" else "MCP tool finished"),
           text := some ((truthyStr msg.invocationServer).getD "" ++ "." ++
             (truthyStr msg.invocationTool).getD ""),
           index := index, eventKey := eventKey }
  else if msgType = "custom_tool_call_begin" ∨ msgType = "custom_tool_call_update" ∨
      msgType = "custom_tool_call_end" then
    some { id := makeId index "tool", kind := "tool", subkind := some "tool-custom",
           title := some (underscoresToSpaces msgType),
           text := some (optStr msg.toolName), index := index, eventKey := eventKey }
  else none

/-- The agent_reasoning and agent_reasoning_delta branch of the rollout
parser: coalesce into a trailing reasoning item at the same index, fixing
the signature set, else push a fresh reasoning item. -/
def parseReasoningStep (st : ParseState) (index : Option Int)
    (eventKey : Option String) (msg : Msg) : ParseState :=
  let nextText := (strOr msg.text msg.delta).getD ""
  if nextText = "" then st
  else
    let fresh : TimelineItem :=
      { id := makeId index "reasoning", kind := "assistant",
        subkind := some "reasoning", title := some "Reasoning",
        text := some nextText, index := index, eventKey := eventKey }
    match st.items.getLast? with
    | some last =>
      if last.kind = "assistant" ∧ last.subkind = some "reasoning" ∧ last.index = index then
        let prevText := optStr last.text
        let prevSignature := signatureFor last (some prevText)
        let nextValue := prevText ++ nextText
        let updated := { last with text := some nextValue }
        { items := st.items.dropLast ++ [updated],
          seen := addUnique (st.seen.erase prevSignature) (signatureFor updated (some nextValue)) }
      else pushUnique st fresh
    | none => pushUnique st fresh

/-- The event branch of the rollout parser for one line. -/
def parseEventStep (st : ParseState) (index : Option Int) (payload : Payload) : ParseState :=
  let eventKey := eventKeyFromPayload payload
  let msg := resolveParseMsg payload
  match msg.type with
  | none => st
  | some msgType =>
    if msgType = "" then st
    else if msgType = "agent_reasoning" ∨ msgType = "agent_reasoning_delta" then
      parseReasoningStep st index eventKey msg
    else
      match parseEventSimpleItem index eventKey msgType msg with
      | some item => pushUnique st item
      | none => st

/-- The response_item branch of the rollout parser for one line. -/
def parseResponseStep (st : ParseState) (index : Option Int) (p : Payload) : ParseState :=
  let itemType := p.self.type
  if itemType = some "reasoning" then
    pushUnique st
      { id := makeId index "reasoning", kind := "assistant",
        subkind := some "reasoning", title := some "Reasoning",
        text := some (let s := summarizePayload p
                      if s = "" then p.self.selfText else s),
        index := index }
  else if itemType ≠ some "message" then
    pushUnique st
      { id := makeId index "tool", kind := "tool",
        subkind := some (if itemType = some "function_call" then "tool-call" else "tool-output"),
        title := some ((strOr p.name p.self.type).getD "Tool"),
        text := some ((strOr p.arguments p.output).getD ""),
        index := index }
  else
    let kind := roleToKind p.role
    let content := p.content.getD []
    let textSegments :=
      ((content.filter (fun seg => seg.type = "output_text" ∨ seg.type = "input_text")).map
        (fun seg => (strOr seg.text seg.refusal).getD "")).filter (fun s => s ≠ "")
    let st1 :=
      if textSegments.isEmpty then st
      else
        pushUnique st
          { id := makeId index "msg", kind := kind, subkind := some "message",
            title := some (if kind = "assistant" then "Assistant"
              else if kind = "user" then "You" else "System"),
            text := some (String.intercalate "\n\n" textSegments),
            index := index }
    content.enum.foldl
      (fun acc pair =>
        if pair.2.type = "output_image" ∨ pair.2.type = "input_image" then
          pushUnique acc
            { id := makeId index ("img-" ++ toString pair.1), kind := kind,
              subkind := some "image",
              title := some (if kind = "assistant" then "Assistant image" else "Image"),
              imageUrl := strOr pair.2.imageUrl pair.2.url,
              index := index }
        else acc)
      st1

/-- One line of parseHistoryItems: dispatch on the extracted entry type. -/
def parseLineStep (st : ParseState) (line : HistoryLine) : ParseState :=
  let entry := extractEntry line
  if entry.type = "event" then parseEventStep st line.index entry.payload
  else if entry.type = "response_item" then parseResponseStep st line.index entry.payload
  else st

/-- parseHistoryItems from the rollout parser: fold the lines through the
per-line step starting from an empty accumulator. -/
def parseHistoryItems (lines : List HistoryLine) : List TimelineItem :=
  (lines.foldl parseLineStep {}).items

/-- One entry of the sessions directory.  Only the fields the engine reads
are modelled; updated_at and last_user_snippet are display metadata the
engine never consults. -/
structure SessionSummary where
  conversationId : String := ""
  messageCount : Option Int := none
  deriving DecidableEq, Repr

/-- An outbound history-fetch intent. -/
structure HistoryRequestPayload where
  before : Option Int := none
  after : Option Int := none
  anchor : Option String := none
  limit : Option Int := none
  deriving DecidableEq, Repr

/-- The activity inference substate: the four refs the activity state
machine reads and writes. -/
structure ActivityState where
  taskActive : Bool := false
  activityLabel : Option String := none
  activeExecCount : Nat := 0
  activeToolCount : Nat := 0
  deriving DecidableEq, Repr

/-- The channel a history request is written to. -/
inductive SendChannel where
  | history
  | stream
  deriving DecidableEq, Repr

/-- A history_request envelope on the wire: the request fields plus the
rollout parameter added when the runtime id differs from the active id. -/
structure HistoryWirePayload where
  request : HistoryRequestPayload := {}
  rollout : Option String := none
  deriving DecidableEq, Repr

/-- The engine state: the reactive refs of App.vue that the transport and
reconciliation logic reads and writes, gathered into one record.  Pure
display refs (status, error, loading flags) and connection plumbing that
never feeds back into the modelled logic (socket urls, the stream retry
timer) are not carried.  WebSocket handles are modelled by their observable
state: none is a null ref, some false a handle that is not open, some true
an open handle.  Timer refs hold the scheduled delay (and for the
prime-fill timer the request its callback will send). -/
structure EngineState where
  items : List TimelineItem := []
  seenLineIndex : List Int := []
  seenEvent : List String := []
  liveIndex : Option Int := none
  lastIndex : Option Int := none
  historyStart : Option Int := none
  historyEnd : Option Int := none
  hasMoreBefore : Bool := false
  hasMoreAfter : Bool := false
  historyMode : String := "tail"
  reasoningId : Option String := none
  pendingHistoryRequests : List HistoryRequestPayload := []
  primeFillTimer : Option (Nat × HistoryRequestPayload) := none
  primeFillInFlight : Bool := false
  primeFillExpectedBefore : Option Int := none
  primeHistoryTimer : Option Nat := none
  primeHistoryInFlight : Bool := false
  historyPrimed : Bool := false
  lazyHistoryReady : Bool := false
  activity : ActivityState := {}
  activeId : Option String := none
  runtimeId : Option String := none
  sessions : List SessionSummary := []
  knownSessionIds : List String := []
  lastRequestedSession : Option String := none
  pendingResume : Option String := none
  token : Option String := none
  localSeq : Nat := 0
  historyWsMode : String := "initial"
  historyWsDisabled : Bool := false
  historyWsAttempt : Nat := 0
  historyWsBackoff : Nat := 0
  historyWsOpen : Option Bool := none
  streamWsOpen : Option Bool := none
  historyHandshake : Option (String × String) := none
  historyRetryTimer : Option Nat := none
  historyConnectTimer : Option Nat := none
  deriving DecidableEq, Repr

/-- The history_chunk envelope. -/
structure ChunkMsg where
  items : List HistoryLine := []
  startIndex : Option Int := none
  endIndex : Option Int := none
  truncated : Bool := false
  before : Option Int := none
  after : Option Int := none
  anchor : Option String := none
  deriving DecidableEq, Repr

/-- The event envelope. -/
structure EventMsg where
  event : Option Payload := none
  deriving DecidableEq, Repr

/-- The conversation_resumed envelope. -/
structure ResumedMsg where
  conversationId : Option String := none
  requestedId : Option String := none
  deriving DecidableEq, Repr

def HISTORY_PRIME_LIMIT : Int := 40
def HISTORY_TARGET_LIMIT : Int := 200
def HISTORY_LARGE_SESSION_THRESHOLD : Int := 10000
def HISTORY_LARGE_PRIME_LIMIT : Int := 20
def HISTORY_AUTO_FILL_THRESHOLD : Int := 5000

/-- messageSignatureForItem from App.vue: kind, subkind, title, text and
image url joined by double colons (no index). -/
def messageSignatureForItem (item : TimelineItem) : String :=
  String.intercalate "::"
    [item.kind, optStr item.subkind, optStr item.title, optStr item.text,
     optStr item.imageUrl]

/-- resetHistoryTracking: clear both dedup sets. -/
def resetHistoryTracking (s : EngineState) : EngineState :=
  { s with seenLineIndex := [], seenEvent := [] }

/-- Accumulator of registerHistoryLines: the kept lines and the two dedup
sets being grown. -/
structure RegisterState where
  fresh : List HistoryLine := []
  seenLineIndex : List Int := []
  seenEvent : List String := []
  deriving DecidableEq, Repr

/-- The keep path of registerHistoryLines for a line whose index is not
yet seen: record the event key of an event line; under skipAgentMessages
drop agent_message event lines while still marking their index seen;
otherwise mark the index seen and keep the line. -/
def registerKeepLine (skipAgentMessages : Bool) (st : RegisterState)
    (line : HistoryLine) : RegisterState :=
  let entry := extractEntry line
  let isEvent := entry.type = "event"
  let key := if isEvent then eventKeyFromPayload entry.payload else none
  let msgType := if isEvent then (resolveRegisterMsg entry.payload).bind (fun m => m.type) else none
  { fresh :=
      if isEvent ∧ skipAgentMessages = true ∧ msgType = some "agent_message" then st.fresh
      else st.fresh ++ [line],
    seenLineIndex :=
      match line.index with
      | some i => addUniqueInt st.seenLineIndex i
      | none => st.seenLineIndex,
    seenEvent :=
      match key with
      | some k => if k = "" then st.seenEvent else addUnique st.seenEvent k
      | none => st.seenEvent }

/-- One line of registerHistoryLines: drop a line whose index was already
seen, otherwise process it through the keep path. -/
def registerLineStep (skipAgentMessages : Bool) (st : RegisterState)
    (line : HistoryLine) : RegisterState :=
  match line.index with
  | some i =>
    if i ∈ st.seenLineIndex then st
    else registerKeepLine skipAgentMessages st line
  | none => registerKeepLine skipAgentMessages st line

/-- registerHistoryLines as a pure fold over the lines. -/
def registerLines (st : RegisterState) (skipAgentMessages : Bool)
    (lines : List HistoryLine) : RegisterState :=
  lines.foldl (registerLineStep skipAgentMessages) st

/-- hasAssistantResponseItem: some line is a response_item whose payload is
an assistant message. -/
def hasAssistantResponseItem (lines : List HistoryLine) : Bool :=
  lines.any (fun line =>
    let entry := extractEntry line
    entry.type == "response_item" && entry.payload.self.type == some "message" &&
      entry.payload.role == some "assistant")

/-- dropEventDuplicates: remove live (event-origin) items whose event key
or, for message items, whole content signature reappears in the freshly
fetched history batch; a no-op when either list is empty. -/
def dropEventDuplicates (s : EngineState) (historyItems : List TimelineItem) : EngineState :=
  { s with items :=
      if s.items.isEmpty ∨ historyItems.isEmpty then s.items
      else
        let historyEventKeys := (historyItems.filterMap (fun it => it.eventKey)).filter (fun k => k ≠ "")
        let historyMessageSignatures :=
          (historyItems.filter (fun it => it.subkind == some "message")).map messageSignatureForItem
        s.items.filter (fun item =>
          if ¬ (item.origin == some "event") then true
          else if (match item.eventKey with
                   | some k => if k = "" then false else decide (k ∈ historyEventKeys)
                   | none => false) then false
          else if item.subkind == some "message" ∧
              messageSignatureForItem item ∈ historyMessageSignatures then false
          else true) }

/-- messageCountFor: the message_count of the session with the given id,
none when the id or the numeric count is missing.  Takes the sessions
directory the closure reads. -/
def messageCountFor (sessions : List SessionSummary) (id : Option String) : Option Int :=
  match id with
  | none => none
  | some i =>
    match sessions.find? (fun ss => ss.conversationId == i) with
    | none => none
    | some m => m.messageCount

/-- historyPrimeLimitFor: the smaller prime limit for very large sessions. -/
def historyPrimeLimitFor (sessions : List SessionSummary) (id : Option String) : Int :=
  match messageCountFor sessions id with
  | some c => if c ≥ HISTORY_LARGE_SESSION_THRESHOLD then HISTORY_LARGE_PRIME_LIMIT else HISTORY_PRIME_LIMIT
  | none => HISTORY_PRIME_LIMIT

/-- shouldAutoFillHistory: true when the session size is unknown or at most
the auto-fill threshold. -/
def shouldAutoFillHistory (sessions : List SessionSummary) (id : Option String) : Bool :=
  match messageCountFor sessions id with
  | none => true
  | some c => c ≤ HISTORY_AUTO_FILL_THRESHOLD

/-- cancelPrimeFill: clear the fill timer, the in-flight flag and the
expected cursor. -/
def cancelPrimeFill (s : EngineState) : EngineState :=
  { s with primeFillTimer := none, primeFillInFlight := false,
           primeFillExpectedBefore := none }

/-- cancelPrimeHistory: clear the prime timer. -/
def cancelPrimeHistory (s : EngineState) : EngineState :=
  { s with primeHistoryTimer := none }

/-- The opening phase of handleHistoryChunk (App.vue lines 594 through
604): clear the prime in-flight flag, reset the dedup sets on an anchor
response, register the raw lines, parse the kept ones and stamp them with
history origin.  Returns the updated state and the parsed batch. -/
def chunkRegisterPhase (m : ChunkMsg) (s : EngineState) :
    EngineState × List TimelineItem :=
  let s := { s with primeHistoryInFlight := false }
  let s := if m.anchor = some "head" ∨ m.anchor = some "tail" then resetHistoryTracking s else s
  let rawLines := m.items
  let skipAgentMessages := hasAssistantResponseItem rawLines
  let reg := registerLines
    { fresh := [], seenLineIndex := s.seenLineIndex, seenEvent := s.seenEvent }
    skipAgentMessages rawLines
  let s := { s with seenLineIndex := reg.seenLineIndex, seenEvent := reg.seenEvent }
  let historyItems := (parseHistoryItems reg.fresh).map (fun it => { it with origin := some "history" })
  (s, historyItems)

/-- The branch dispatch of handleHistoryChunk (App.vue lines 605 through
667): wholesale replacement for anchors (with the debounced auto-fill
schedule on a truncated small tail), prepend for before pages, splice for
after pages. -/
def chunkBranchPhase (m : ChunkMsg) (historyItems : List TimelineItem)
    (s : EngineState) : EngineState :=
  if m.anchor = some "head" then
    let s := cancelPrimeFill s
    { s with reasoningId := none, items := historyItems, historyMode := "head",
             hasMoreAfter := m.truncated, hasMoreBefore := false,
             historyStart := m.startIndex, historyEnd := m.endIndex }
  else if m.anchor = some "tail" then
    let s := cancelPrimeFill s
    let s := { s with reasoningId := none, items := historyItems,
                      historyMode := "tail", hasMoreBefore := m.truncated,
                      hasMoreAfter := false, historyStart := m.startIndex,
                      historyEnd := m.endIndex }
    let s := cancelPrimeHistory s
    let canAutoFill := shouldAutoFillHistory s.sessions s.activeId
    if ¬ s.primeFillInFlight ∧ canAutoFill = true ∧ m.truncated = true ∧
        (historyItems.length : Int) < HISTORY_TARGET_LIMIT ∧ m.startIndex.isSome then
      let remaining := HISTORY_TARGET_LIMIT - (historyItems.length : Int)
      { s with primeFillInFlight := true, primeFillExpectedBefore := m.startIndex,
               primeFillTimer := some (200, { before := m.startIndex, limit := some remaining }) }
    else s
  else if m.before.isSome then
    let s :=
      if s.primeFillExpectedBefore = m.before then
        { s with primeFillInFlight := false, primeFillExpectedBefore := none }
      else s
    let s := dropEventDuplicates s historyItems
    { s with items := historyItems ++ s.items, historyMode := "tail",
             hasMoreBefore := m.truncated }
  else if m.after.isSome then
    let s := dropEventDuplicates s historyItems
    let newItems :=
      match s.items.findIdx? (fun it => ¬ (it.origin == some "history")) with
      | none => s.items ++ historyItems
      | some liveStart => s.items.take liveStart ++ historyItems ++ s.items.drop liveStart
    { s with items := newItems, historyMode := "head", hasMoreAfter := m.truncated }
  else s

/-- The trailing bookkeeping of handleHistoryChunk (App.vue lines 668
through 698): extend the covered range for non-anchor responses, advance
the live index past the chunk end when not already past it, and track the
last seen index.  The four sequential ref writes of the source are
independent (each reads only fields it alone writes), so they are one
record update here. -/
def chunkIndexPhase (m : ChunkMsg) (s : EngineState) : EngineState :=
  { s with
    historyStart :=
      if m.anchor ≠ some "head" ∧ m.anchor ≠ some "tail" ∧ m.startIndex.isSome then
        match s.historyStart, m.startIndex with
        | none, v => v
        | some a, some b => some (min a b)
        | some a, none => some a
      else s.historyStart,
    historyEnd :=
      if m.anchor ≠ some "head" ∧ m.anchor ≠ some "tail" ∧ m.endIndex.isSome then
        match s.historyEnd, m.endIndex with
        | none, v => v
        | some a, some b => some (max a b)
        | some a, none => some a
      else s.historyEnd,
    liveIndex :=
      match m.endIndex with
      | some e =>
        if (match s.liveIndex with
            | none => true
            | some v => decide (v ≤ e)) then some (e + 1)
        else s.liveIndex
      | none => s.liveIndex,
    lastIndex :=
      match m.endIndex with
      | some e =>
        match s.lastIndex with
        | none => some e
        | some a => some (max a e)
      | none => s.lastIndex }

/-- handleHistoryChunk: register and parse, dispatch on the response kind,
then update the index bookkeeping. -/
def handleHistoryChunk (m : ChunkMsg) (s : EngineState) : EngineState :=
  let rp := chunkRegisterPhase m s
  chunkIndexPhase m (chunkBranchPhase m rp.2 rp.1)

/-- noteActivity: record a label and mark a task active. -/
def noteActivity (label : String) (a : ActivityState) : ActivityState :=
  { a with activityLabel := some label, taskActive := true }

/-- settleActivity: re-derive the label from the two counters, clearing it
only when no task is active. -/
def settleActivity (a : ActivityState) : ActivityState :=
  if a.activeExecCount > 0 then { a with activityLabel := some "Running command" }
  else if a.activeToolCount > 0 then
    { a with activityLabel :=
        match a.activityLabel with
        | some l => some l
        | none => some "Using tools" }
  else if ¬ a.taskActive then { a with activityLabel := none }
  else a

/-- resetActivity: clear all four activity refs. -/
def resetActivity (_a : ActivityState) : ActivityState := {}

/-- updateActivityFromEvent: the activity inference transition for one
event type.  Counter decrements use Nat subtraction, which is exactly the
Math.max(0, n - 1) clamp of the source. -/
def updateActivityFromEvent (msgType : String) (a : ActivityState) : ActivityState :=
  if msgType = "task_started" then noteActivity "Thinking" a
  else if msgType = "task_complete" ∨ msgType = "turn_aborted" then
    settleActivity { a with taskActive := false }
  else if msgType = "agent_reasoning_delta" ∨ msgType = "agent_reasoning" then
    noteActivity "Thinking" a
  else if msgType = "agent_message_delta" then noteActivity "Responding" a
  else if msgType = "agent_message" then
    if a.taskActive then { a with activityLabel := some "Responding" } else a
  else if msgType = "exec_command_begin" then
    { a with activeExecCount := a.activeExecCount + 1,
             activityLabel := some "Running command" }
  else if msgType = "exec_command_end" then
    settleActivity { a with activeExecCount := a.activeExecCount - 1 }
  else if msgType = "custom_tool_call_begin" ∨ msgType = "mcp_tool_call_begin" ∨
      msgType = "web_search_begin" then
    { a with activeToolCount := a.activeToolCount + 1,
             activityLabel := some "Using tools" }
  else if msgType = "custom_tool_call_end" ∨ msgType = "mcp_tool_call_end" ∨
      msgType = "web_search_complete" then
    settleActivity { a with activeToolCount := a.activeToolCount - 1 }
  else if msgType = "browser_screenshot_update" then
    if strTruthy a.activityLabel then a else { a with activityLabel := some "Using browser" }
  else a

/-- updateSessionFromEvent: a no-op unless a session is active; the fields
it then rewrites (updated_at, last_user_snippet) are display metadata not
carried by the model, so the mapped entries are unchanged. -/
def updateSessionFromEvent (s : EngineState) : EngineState :=
  { s with sessions :=
      if strTruthy s.activeId then s.sessions.map (fun ss => ss) else s.sessions }

/-- extractReasoningText: text, else delta, else message, else empty, with
nullish (not truthiness) fallback. -/
def extractReasoningText (msg : Msg) : String :=
  match msg.text with
  | some t => t
  | none =>
    match msg.delta with
    | some d => d
    | none =>
      match msg.message with
      | some m => m
      | none => ""

/-- The backward scan of appendReasoningDelta: from the tail, find a
trailing assistant reasoning item, stopping early at an assistant
message. -/
def findReasoningTargetRev : List (Nat × TimelineItem) → Option Nat
  | [] => none
  | (i, it) :: rest =>
    if it.kind = "assistant" ∧ it.subkind = some "reasoning" then some i
    else if it.kind = "assistant" ∧ it.subkind = some "message" then none
    else findReasoningTargetRev rest

/-- appendReasoningDelta: extend the reasoning entry identified by the
reasoning id ref, else the trailing reasoning entry found by the backward
scan, else push a new reasoning entry whose id suffix is drawn from the
localSeq counter (the deterministic replacement of the random suffix that
the design notes of the spec prescribe). -/
def appendReasoningDelta (delta : String) (index : Int) (key : Option String)
    (s : EngineState) : EngineState :=
  if delta = "" then s
  else
    let next := s.items
    let targetFromRid :=
      match s.reasoningId with
      | some rid => next.findIdx? (fun item => item.id == rid)
      | none => none
    let target :=
      match targetFromRid with
      | some t => some t
      | none => findReasoningTargetRev next.enum.reverse
    match target with
    | some t =>
      match next.get? t with
      | some current =>
        let updated :=
          { current with
            text := some (optStr current.text ++ delta),
            eventKey := (match current.eventKey with
              | some k => some k
              | none => key),
            origin := (match current.origin with
              | some o => some o
              | none => some "event") }
        { s with items := next.set t updated, reasoningId := some updated.id }
      | none => s
    | none =>
      let id := "reasoning-" ++ toString index ++ "-" ++ toString s.localSeq
      { s with localSeq := s.localSeq + 1, reasoningId := some id,
               items := next ++
                 [{ id := id, kind := "assistant", subkind := some "reasoning",
                    title := some "Reasoning", text := some delta,
                    index := some index, eventKey := key, origin := some "event" }] }

/-- appendHistoryLines: parse the lines, stamp them with event origin and
append them when nonempty. -/
def appendHistoryLines (lines : List HistoryLine) (s : EngineState) : EngineState :=
  let parsed := (parseHistoryItems lines).map (fun it => { it with origin := some "event" })
  { s with items := if parsed.isEmpty then s.items else s.items ++ parsed }

/-- The event msg type read by handleEvent: only the nested msg field, with
no fallback chain. -/
def msgTypeOfEvent (ev : Payload) : Option String :=
  ev.msg.bind (fun m => m.type)

/-- The index handleEvent assigns to a live event: the live counter, else
one past the known history end, else zero, clamped below by zero. -/
def nextAssignedIndex (s : EngineState) : Int :=
  let nextIndex :=
    match s.liveIndex with
    | some v => v
    | none =>
      match s.historyEnd with
      | none => 0
      | some e => e + 1
  max 0 nextIndex

/-- The truthy-key registration of handleEvent: a truthy key is added to
the seen set. -/
def recordEventKey (key : Option String) (s : EngineState) : EngineState :=
  { s with seenEvent :=
      match key with
      | some k => if k = "" then s.seenEvent else addUnique s.seenEvent k
      | none => s.seenEvent }

/-- The activity update of handleEvent, run for a truthy string msg
type. -/
def applyEventActivity (msgType : Option String) (s : EngineState) : EngineState :=
  { s with activity :=
      match msgType with
      | some t => if t = "" then s.activity else updateActivityFromEvent t s.activity
      | none => s.activity }

/-- The session touch of handleEvent: user and agent messages refresh the
session row and reset the reasoning coalescing target. -/
def applyEventSessionTouch (msgType : Option String) (s : EngineState) : EngineState :=
  if msgType = some "user_message" ∨ msgType = some "agent_message" then
    { updateSessionFromEvent s with reasoningId := none }
  else s

/-- The append dispatch of handleEvent: reasoning deltas coalesce, every
other event is parsed as a one-line history batch at the assigned index. -/
def dispatchEventAppend (ev : Payload) (msgType : Option String)
    (assignedIndex : Int) (key : Option String) (s : EngineState) : EngineState :=
  if msgType = some "agent_reasoning" ∨ msgType = some "agent_reasoning_delta" then
    let delta :=
      match ev.msg with
      | some mg => extractReasoningText mg
      | none => ""
    if delta = "" then s else appendReasoningDelta delta assignedIndex key s
  else
    appendHistoryLines
      [{ index := some assignedIndex, type := "event", payload := ev, value := none }] s

/-- handleEvent: drop duplicates by event key, record the key, run the
activity machine, touch the session row, assign the next live index, then
either coalesce a reasoning delta or append the parsed entries of the
event line. -/
def handleEvent (m : EventMsg) (s : EngineState) : EngineState :=
  match m.event with
  | none => s
  | some ev =>
    let key := eventKeyFromPayload ev
    if (match key with
        | some k => if k = "" then false else decide (k ∈ s.seenEvent)
        | none => false) then s
    else
      let s := recordEventKey key s
      let msgType := msgTypeOfEvent ev
      let s := applyEventActivity msgType s
      let s := applyEventSessionTouch msgType s
      let assignedIndex := nextAssignedIndex s
      let s := { s with liveIndex := some (assignedIndex + 1) }
      dispatchEventAppend ev msgType assignedIndex key s

/-- The conversation_resumed handler of the control channel onmessage:
ignore the message when a truthy requested id differs from the active id,
or when both a truthy last requested id and a truthy requested id disagree;
otherwise clear the pending resume and record a truthy runtime id. -/
def handleConversationResumed (m : ResumedMsg) (s : EngineState) : EngineState :=
  if strTruthy m.requestedId ∧ m.requestedId ≠ s.activeId then s
  else if strTruthy s.lastRequestedSession ∧ strTruthy m.requestedId ∧
      m.requestedId ≠ s.lastRequestedSession then s
  else
    let s := { s with pendingResume := none }
    if strTruthy m.conversationId then { s with runtimeId := m.conversationId } else s

/-- buildHistoryPayload: the request plus the rollout parameter when the
runtime id differs from the active id. -/
def buildHistoryPayload (s : EngineState) (r : HistoryRequestPayload) : HistoryWirePayload :=
  { request := r,
    rollout :=
      if strTruthy s.runtimeId ∧ strTruthy s.activeId ∧ s.runtimeId ≠ s.activeId then s.activeId
      else none }

/-- Whether the history socket ref holds an open connection. -/
def historyWsIsOpen (s : EngineState) : Bool := s.historyWsOpen == some true

/-- Whether the stream socket ref holds an open connection. -/
def streamWsIsOpen (s : EngineState) : Bool := s.streamWsOpen == some true

/-- sendHistoryRequest: prefer the open history socket while in initial
mode, else the open stream socket, else enqueue.  Returns the new state and
the writes performed. -/
def sendHistoryRequest (r : HistoryRequestPayload) (s : EngineState) :
    EngineState × List (SendChannel × HistoryWirePayload) :=
  if s.historyWsMode = "initial" ∧ historyWsIsOpen s = true then
    (s, [(SendChannel.history, buildHistoryPayload s r)])
  else if streamWsIsOpen s = true then
    (s, [(SendChannel.stream, buildHistoryPayload s r)])
  else
    ({ s with pendingHistoryRequests := s.pendingHistoryRequests ++ [r] }, [])

/-- flushPendingHistoryRequests: drain the queue through the first ready
channel in priority order, a no-op when no channel is ready. -/
def flushPendingHistoryRequests (s : EngineState) :
    EngineState × List (SendChannel × HistoryWirePayload) :=
  if s.pendingHistoryRequests.isEmpty then (s, [])
  else
    let activeWs : Option SendChannel :=
      if s.historyWsMode = "initial" then
        if historyWsIsOpen s then some SendChannel.history
        else if streamWsIsOpen s then some SendChannel.stream
        else none
      else if streamWsIsOpen s then some SendChannel.stream
      else none
    match activeWs with
    | none => (s, [])
    | some ch =>
      let queued := s.pendingHistoryRequests
      ({ s with pendingHistoryRequests := [] },
       queued.map (fun r => (ch, buildHistoryPayload s r)))

/-- firePrimeFill: the prime-fill timer callback, clearing the timer and
sending the request it carried. -/
def firePrimeFill (s : EngineState) :
    EngineState × List (SendChannel × HistoryWirePayload) :=
  match s.primeFillTimer with
  | none => (s, [])
  | some (_, r) => sendHistoryRequest r { s with primeFillTimer := none }

/-- scheduleResume: record the pending resume target.  The 500ms polling
loop that keeps retrying until the control channel opens is timer
environment; its guard is modelled by attemptResume below. -/
def scheduleResume (id : String) (_delay : Nat) (s : EngineState) : EngineState :=
  { s with pendingResume := some id }

/-- One tick of the resume polling loop: dies silently when the pending
resume no longer targets its session, reschedules while the control
channel is closed, and otherwise sends resume_conversation.  The returned
flag says whether the resume message was sent. -/
def attemptResume (id : String) (controlOpen : Bool) (s : EngineState) :
    EngineState × Bool :=
  if s.pendingResume ≠ some id then (s, false)
  else if ¬ controlOpen then (s, false)
  else (s, true)

/-- closeHistorySocket: null the ref and the handshake record; reset the
backoff only when a socket existed (the deferred close of a connecting
socket is connection plumbing outside the state). -/
def closeHistorySocket (s : EngineState) : EngineState :=
  let hadWs := s.historyWsOpen.isSome
  let s := { s with historyWsOpen := none, historyHandshake := none }
  if hadWs then { s with historyWsBackoff := 0 } else s

/-- setHistoryWsModeForSession: force stream mode, disable the dedicated
history channel, reset its backoff and close its socket when a session is
being activated. -/
def setHistoryWsModeForSession (nextId : Option String) (s : EngineState) : EngineState :=
  let s := { s with historyWsMode := "stream", historyWsDisabled := true,
                    historyWsBackoff := 0 }
  if nextId.isSome then closeHistorySocket s else s

/-- schedulePrimeHistory: arm the 50ms prime timer unless history is
already primed, the mode or readiness gate blocks an unforced call, or a
timer is already pending.  The lazyHistory ref is constant true in the
source. -/
def schedulePrimeHistory (force : Bool) (s : EngineState) : EngineState :=
  if s.historyPrimed then s
  else if ¬ force ∧ s.historyWsMode ≠ "initial" then s
  else if ¬ force ∧ ¬ s.lazyHistoryReady then s
  else if s.primeHistoryTimer.isSome then s
  else { s with primeHistoryTimer := some 50 }

/-- activateSession: defer activation of an unknown id to a directory
refresh; otherwise tear down the per-session state, disable the dedicated
history channel, reset the dedup and index state, clear the item list and
the request queue, and schedule the resume and the history prime for a
non-null id. -/
def activateSession (id : Option String) (s : EngineState) : EngineState :=
  if id = s.activeId then s
  else if strTruthy id ∧ s.knownSessionIds.length > 0 ∧
      (match id with
       | some b => if b ∈ s.knownSessionIds then false else decide (s.runtimeId ≠ some b)
       | none => false) = true then s
  else
    let s := setHistoryWsModeForSession id s
    let s := { s with lastRequestedSession := id, reasoningId := none,
                      primeHistoryInFlight := false, historyPrimed := false,
                      lazyHistoryReady := false, pendingHistoryRequests := [] }
    let s := cancelPrimeFill s
    let s := { s with activity := resetActivity s.activity }
    let s := resetHistoryTracking s
    let s := { s with lastIndex := none, runtimeId := none, items := [],
                      historyStart := none, historyEnd := none,
                      hasMoreBefore := false, hasMoreAfter := false,
                      historyMode := "tail", liveIndex := none, activeId := id }
    match id with
    | some b => schedulePrimeHistory true (scheduleResume b 200 s)
    | none => s

/-- loadSession: the activeId watcher body; re-clears the per-session state
and schedules the resume, a no-op without a token. -/
def loadSession (id : String) (s : EngineState) : EngineState :=
  if ¬ strTruthy s.token then s
  else
    let s := { s with reasoningId := none, primeHistoryInFlight := false,
                      historyPrimed := false, lazyHistoryReady := false,
                      pendingHistoryRequests := [] }
    let s := cancelPrimeFill s
    let s := { s with activity := resetActivity s.activity }
    let s := { s with items := [], historyStart := none, historyEnd := none,
                      hasMoreBefore := false, hasMoreAfter := false,
                      liveIndex := none, runtimeId := none }
    scheduleResume id 400 s

/-- The teardown the streamKey watcher runs when the stream target of the
previous session is replaced: cancel the prime and fill timers, clear the
in-flight flag and close the stream socket. -/
def streamWatcherCleanup (s : EngineState) : EngineState :=
  let s := cancelPrimeHistory s
  let s := cancelPrimeFill s
  { s with primeHistoryInFlight := false, streamWsOpen := none }

/-- A session switch as the component performs it: the synchronous
activateSession call, then the reactive flush in watcher registration
order: the activeId watcher (loadSession) and the streamKey watcher
teardown of the previous session's stream. -/
def switchSession (b : String) (s : EngineState) : EngineState :=
  streamWatcherCleanup (loadSession b (activateSession (some b) s))

/-- handleHistoryHandshakeFailure: when the stale handshake record still
refers to the currently active session and token, clear it and force a
resume if none is pending. -/
def handleHistoryHandshakeFailure (s : EngineState) : EngineState :=
  if ¬ strTruthy s.activeId ∨ ¬ strTruthy s.token then s
  else
    match s.historyHandshake with
    | none => s
    | some h =>
      if some h.1 ≠ s.activeId ∨ some h.2 ≠ s.token then s
      else
        let s := { s with historyHandshake := none }
        if strTruthy s.pendingResume then s
        else scheduleResume (s.activeId.getD "") 0 s

/-- The history socket onclose handler.  opened says whether the socket
ever reached open; shouldRetry folds the closure guard (not torn down and
the url still current); retries is the local retry counter of the connect
closure before this close.  After a second consecutive handshake failure
the channel disables itself and flushes the queue; otherwise the backoff
level rises and a retry timer is armed with exponential delay, using the
faster probing pair before history is first primed. -/
def historyOnClose (opened : Bool) (shouldRetry : Bool) (retries : Nat)
    (s : EngineState) : EngineState × List (SendChannel × HistoryWirePayload) :=
  let s := { s with historyWsOpen := none }
  let s := if ¬ opened then handleHistoryHandshakeFailure s else s
  if ¬ shouldRetry then (s, [])
  else if ¬ opened ∧ s.historyWsAttempt + 1 ≥ 2 then
    let s := { s with historyWsAttempt := s.historyWsAttempt + 1,
                      historyWsDisabled := true }
    flushPendingHistoryRequests s
  else
    let s := if ¬ opened then { s with historyWsAttempt := s.historyWsAttempt + 1 } else s
    let s := { s with historyWsBackoff := min 6 (s.historyWsBackoff + 1) }
    let maxDelay : Nat := if s.historyPrimed then 10000 else 2000
    let baseDelay : Nat := if s.historyPrimed then 500 else 200
    ({ s with historyRetryTimer := some (min maxDelay (baseDelay * 2 ^ (retries + 1))) }, [])

/-- The guard of the history connect closure: a disabled channel never
reconnects; otherwise the 600ms connect timer is armed (socket creation
itself is external). -/
def historyConnect (s : EngineState) : EngineState :=
  if s.historyWsDisabled then s
  else { s with historyRetryTimer := none, historyConnectTimer := some 600 }

/-- One delivery on the reconciliation engine: a history chunk or a live
event. -/
inductive Delivery where
  | chunk (m : ChunkMsg)
  | event (m : EventMsg)
  deriving Repr

/-- Apply one delivery. -/
def stepDelivery (s : EngineState) (d : Delivery) : EngineState :=
  match d with
  | Delivery.chunk m => handleHistoryChunk m s
  | Delivery.event m => handleEvent m s

/-- Apply a sequence of deliveries in order. -/
def runDeliveries (s : EngineState) (ds : List Delivery) : EngineState :=
  ds.foldl stepDelivery s

/-- The engine state of a freshly reset session: the record of defaults,
matching the state right after session activation wipes every per-session
field. -/
def freshEngineState : EngineState := {}

/-! Derived definitions used by theorem statements. -/

/-- The item list an anchor=tail (or head) chunk installs: its lines
registered against freshly reset dedup sets, parsed, and stamped with
history origin.  A pure function of the message. -/
def tailHistoryItems (m : ChunkMsg) : List TimelineItem :=
  (parseHistoryItems
    (registerLines { fresh := [], seenLineIndex := [], seenEvent := [] }
      (hasAssistantResponseItem m.items) m.items).fresh).map
    (fun it => { it with origin := some "history" })

/-- The timeline entries a live event with the given payload produces when
it is assigned index i. -/
def eventEntriesFor (p : Payload) (i : Int) : List TimelineItem :=
  (parseHistoryItems [{ index := some i, type := "event", payload := p, value := none }]).map
    (fun it => { it with origin := some "event" })

/-- The activity states after each event of a type sequence, starting from
the reset activity state. -/
def activityStatesFor (types : List String) : List ActivityState :=
  (types.scanl (fun a t => updateActivityFromEvent t a) {}).tail

/-- The activity labels after each event of a type sequence; none renders
as Idle. -/
def activityLabelsFor (types : List String) : List (Option String) :=
  (activityStatesFor types).map (fun a => a.activityLabel)

/-- The event-type sequence of the claimed activity scenario. -/
def c5EventTypes : List String :=
  ["task_started", "exec_command_begin", "exec_command_begin",
   "exec_command_end", "exec_command_end", "task_complete"]

/-- Two timeline entries carry the same non-null dedup key. -/
def bothKeyedEqual (a b : TimelineItem) : Prop :=
  a.eventKey.isSome = true ∧ a.eventKey = b.eventKey

/-- The invariant of the spec as claimed: no two entries of the list share
a non-null event key. -/
def NoDuplicateEventKeys (items : List TimelineItem) : Prop :=
  List.Pairwise (fun a b => ¬ bothKeyedEqual a b) items

/-- The relation that does hold: entries sharing a non-null event key are
both of history origin. -/
def sharedKeyOnlyHistory (a b : TimelineItem) : Prop :=
  match a.eventKey, b.eventKey with
  | some k1, some k2 =>
    k1 = k2 → (a.origin = some "history" ∧ b.origin = some "history")
  | _, _ => True

/-- The amended duplicate invariant: equal non-null event keys occur only
between history-origin entries. -/
def DupKeysOnlyHistory (items : List TimelineItem) : Prop :=
  List.Pairwise sharedKeyOnlyHistory items

/-- Every non-null event key of an item in the list is a nonempty string
recorded in the given seen set. -/
def KeysTracked (seen : List String) (items : List TimelineItem) : Prop :=
  ∀ it ∈ items, ∀ k, it.eventKey = some k → k ∈ seen ∧ k ≠ ""

/-- Every item of the list carries an explicit history or event origin. -/
def OriginsOk (items : List TimelineItem) : Prop :=
  ∀ it ∈ items, it.origin = some "history" ∨ it.origin = some "event"

/-- The reconciliation invariant maintained across deliveries. -/
def EngineInv (s : EngineState) : Prop :=
  KeysTracked s.seenEvent s.items ∧ OriginsOk s.items ∧ DupKeysOnlyHistory s.items

/-! Concrete inputs used by counterexamples and witnesses. -/

/-- An event payload with identity a and sequence 1, wrapping a user
message. -/
def dupPayload : Payload :=
  { id := some "a", eventSeq := some "1",
    msg := some { type := some "user_message", message := some "hi" } }

/-- A tail chunk whose two lines sit at distinct indices but carry the same
event identity. -/
def dupChunk : ChunkMsg :=
  { items := [{ index := some 0, type := "event", payload := dupPayload },
              { index := some 1, type := "event", payload := dupPayload }],
    startIndex := some 0, endIndex := some 1, anchor := some "tail" }

/-- A history line at the given index holding a user message. -/
def userLine (i : Int) : HistoryLine :=
  { index := some i, type := "event",
    payload := { msg := some { type := some "user_message",
                               message := some ("m" ++ toString i) } } }

/-- The before=10 chunk of the C6 scenario: lines at indices 0 through
15. -/
def c6Chunk : ChunkMsg :=
  { items := (List.range 16).map (fun n => userLine n),
    startIndex := some 0, endIndex := some 15, before := some 10 }

/-- The C6 starting state: indices 10 through 50 already seen and one
existing history item. -/
def c6State : EngineState :=
  { freshEngineState with
      seenLineIndex := (List.range 41).map (fun n => (n : Int) + 10),
      items := [{ id := "10-user", kind := "user", subkind := some "message",
                  title := some "You", text := some "m10", index := some 10,
                  origin := some "history" }],
      historyStart := some 10, historyEnd := some 50 }

/-- A truncated tail chunk of two lines, for the auto-fill and idempotence
scenarios. -/
def c3Chunk : ChunkMsg :=
  { items := [userLine 40, userLine 41], startIndex := some 40,
    endIndex := some 41, truncated := true, anchor := some "tail" }

/-- A state with an active session of known small message count. -/
def c3State : EngineState :=
  { freshEngineState with
      activeId := some "A",
      sessions := [{ conversationId := "A", messageCount := some 100 }] }

/-- A state resuming session A: active, last requested and pending resume
all A. -/
def c8State : EngineState :=
  { freshEngineState with activeId := some "A",
                          lastRequestedSession := some "A",
                          pendingResume := some "A" }

/-- A conversation_resumed envelope that carries a runtime id but no
requested id. -/
def c8KeylessResumed : ResumedMsg :=
  { conversationId := some "R", requestedId := none }

/-- A keyless reasoning delta event: no id, no event_seq. -/
def keylessReasoningEvent : EventMsg :=
  { event := some { msg := some { type := some "agent_reasoning_delta",
                                  delta := some "x" } } }

/-- A keyless user message event. -/
def keylessUserEvent : EventMsg :=
  { event := some { msg := some { type := some "user_message",
                                  message := some "hello" } } }

/-- A state in initial history mode whose history channel has failed one
handshake already. -/
def c4State : EngineState :=
  { freshEngineState with historyWsMode := "initial", historyWsAttempt := 1,
                          streamWsOpen := some true }

/-- A mid-session state of session A with pending timers, queue entries and
timeline items, for the session-switch scenario. -/
def c7StateOne : EngineState :=
  { freshEngineState with
      activeId := some "A", knownSessionIds := ["A", "B"],
      sessions := [{ conversationId := "A", messageCount := some 5 },
                   { conversationId := "B", messageCount := some 7 }],
      items := [{ id := "3-user", kind := "user", subkind := some "message",
                  title := some "You", text := some "from A", index := some 3,
                  origin := some "history" }],
      seenLineIndex := [3], seenEvent := ["a:1"], liveIndex := some 4,
      pendingHistoryRequests := [{ before := some 3, limit := some 200 }],
      primeFillTimer := some (200, { before := some 3, limit := some 100 }),
      primeFillInFlight := true, primeHistoryTimer := some 50,
      pendingResume := some "A", token := some "tok",
      streamWsOpen := some true }

/-- A different mid-session state of session A agreeing with the first on
every field the switch does not overwrite. -/
def c7StateTwo : EngineState :=
  { c7StateOne with
      items := [], seenLineIndex := [], seenEvent := [], liveIndex := some 9,
      pendingHistoryRequests := [], primeFillTimer := none,
      primeFillInFlight := false, primeHistoryTimer := none,
      pendingResume := none, historyStart := some 1, historyEnd := some 8,
      runtimeId := some "R", streamWsOpen := some false }

/-- Every non-null event key of the single item is a nonempty string in
the given seen set. -/
def itemKeyOk (S : List String) (it : TimelineItem) : Prop :=
  ∀ k, it.eventKey = some k → k ∈ S ∧ k ≠ ""

/-- Every non-null event key carried by an event-typed history line is a
nonempty string in the given seen set. -/
def lineKeyOk (S : List String) (l : HistoryLine) : Prop :=
  (extractEntry l).type = "event" →
    ∀ k, eventKeyFromPayload (extractEntry l).payload = some k → k ∈ S ∧ k ≠ ""

/-! Theorems. -/

/-- Claim C5, counterexample.  Feeding the event-type sequence of the claim
into the activity machine does not produce the claimed label sequence
Thinking, RunningCommand, RunningCommand, RunningCommand, Idle, Idle
(with Idle rendered as none and RunningCommand as the label string
Running command): after the second exec_command_end the task is still
active, so the label remains Running command instead of the claimed
Idle. -/
theorem c5_activity_labels_counterexample :
    ¬ (activityLabelsFor c5EventTypes =
        [some "Thinking", some "Running command", some "Running command",
         some "Running command", none, none]) := by
  decide

/-- Claim C5, amended.  The label sequence actually produced is Thinking,
RunningCommand, RunningCommand, RunningCommand, RunningCommand, Idle: the
command counter reaches zero only after both end events, but the label
stays RunningCommand until task_complete settles it to Idle.  The counter
trace 0, 1, 2, 1, 0, 0 confirms the counting. -/
theorem c5_activity_labels_amended :
    activityLabelsFor c5EventTypes =
      [some "Thinking", some "Running command", some "Running command",
       some "Running command", some "Running command", none] ∧
    (activityStatesFor c5EventTypes).map (fun a => a.activeExecCount) =
      [0, 1, 2, 1, 0, 0] ∧
    (activityStatesFor c5EventTypes).map (fun a => a.taskActive) =
      [true, true, true, true, true, false] := by
  decide

/-- Claim C6.  With indices 10 through 50 recorded as seen, a before=10
chunk holding lines at indices 0 through 15 keeps exactly the lines at
indices 0 through 9 (the register filter drops every already-seen index)
and prepends their parsed items to the existing list. -/
theorem c6_before_chunk_prepends_unseen_prefix :
    (registerLines
        { fresh := [], seenLineIndex := c6State.seenLineIndex,
          seenEvent := c6State.seenEvent }
        (hasAssistantResponseItem c6Chunk.items) c6Chunk.items).fresh =
      (List.range 10).map (fun n => userLine n) ∧
    (handleHistoryChunk c6Chunk c6State).items =
      (parseHistoryItems ((List.range 10).map (fun n => userLine n))).map
        (fun it => { it with origin := some "history" }) ++ c6State.items := by
  constructor
  · decide
  · decide

/-- Claim C8, counterexample.  A conversation_resumed message with no
requested_id mutates state (clears the pending resume and records the
runtime id) even though its requested id does not equal the active id, so
acceptance is not restricted to messages whose requested_id matches the
active and last-requested ids. -/
theorem c8_resumed_counterexample :
    (handleConversationResumed c8KeylessResumed c8State).pendingResume = none ∧
    (handleConversationResumed c8KeylessResumed c8State).runtimeId = some "R" ∧
    c8KeylessResumed.requestedId ≠ c8State.activeId := by
  decide

/-- Claim C8, amended.  A conversation_resumed message carrying a truthy
requested_id is ignored when that id differs from the active id, and also
when a truthy last-requested id disagrees with it; when it matches the
active id and no truthy last-requested id disagrees, the pending resume is
cleared and a truthy conversation_id is recorded as the runtime id.  A
message without a truthy requested_id, however, is always accepted. -/
theorem c8_resumed_amended (s : EngineState) (m : ResumedMsg) :
    (strTruthy m.requestedId = true → m.requestedId ≠ s.activeId →
      handleConversationResumed m s = s) ∧
    (strTruthy m.requestedId = true → strTruthy s.lastRequestedSession = true →
      m.requestedId ≠ s.lastRequestedSession → handleConversationResumed m s = s) ∧
    (strTruthy m.requestedId = true → m.requestedId = s.activeId →
      (strTruthy s.lastRequestedSession = false ∨ m.requestedId = s.lastRequestedSession) →
      (handleConversationResumed m s).pendingResume = none ∧
      (handleConversationResumed m s).runtimeId =
        (if strTruthy m.conversationId then m.conversationId else s.runtimeId)) ∧
    (strTruthy m.requestedId = false →
      (handleConversationResumed m s).pendingResume = none) := by
  refine ⟨?_, ?_, ?_, ?_⟩
  · intro h1 h2
    unfold handleConversationResumed
    rw [if_pos ⟨h1, h2⟩]
  · intro h1 h2 h3
    unfold handleConversationResumed
    split
    · rfl
    · rw [if_pos ⟨h2, h1, h3⟩]
  · intro h1 h2 h3
    have hg1 : ¬ (strTruthy m.requestedId = true ∧ m.requestedId ≠ s.activeId) := by
      intro h
      exact h.2 h2
    have hg2 : ¬ (strTruthy s.lastRequestedSession = true ∧ strTruthy m.requestedId = true ∧
        m.requestedId ≠ s.lastRequestedSession) := by
      rcases h3 with h3 | h3
      · intro h
        rw [h3] at h
        exact absurd h.1 (by simp)
      · intro h
        exact h.2.2 h3
    unfold handleConversationResumed
    rw [if_neg hg1, if_neg hg2]
    constructor
    · split <;> rfl
    · split <;> simp_all
  · intro h1
    have hg1 : ¬ (strTruthy m.requestedId = true ∧ m.requestedId ≠ s.activeId) := by
      intro h
      rw [h1] at h
      exact absurd h.1 (by simp)
    have hg2 : ¬ (strTruthy s.lastRequestedSession = true ∧ strTruthy m.requestedId = true ∧
        m.requestedId ≠ s.lastRequestedSession) := by
      intro h
      rw [h1] at h
      exact absurd h.2.1 (by simp)
    unfold handleConversationResumed
    rw [if_neg hg1, if_neg hg2]
    split <;> rfl

/-- Witness for the amended C8 theorem: a resume confirmation for session B
arriving while session A is active is ignored. -/
theorem c8_resumed_amended_witness :
    handleConversationResumed { requestedId := some "B" } c8State = c8State :=
  (c8_resumed_amended c8State { requestedId := some "B" }).1 (by decide) (by decide)

/-- The index bookkeeping phase never touches the item list. -/
theorem chunkIndexPhase_items (m : ChunkMsg) (s : EngineState) :
    (chunkIndexPhase m s).items = s.items := rfl

/-- On an anchor=tail chunk the register phase resets both dedup sets
before registering, so the resulting state and parsed batch are a function
of the message alone (beyond the untouched fields of the state). -/
theorem chunkRegisterPhase_eq_tail (m : ChunkMsg) (s : EngineState)
    (h : m.anchor = some "tail") :
    chunkRegisterPhase m s =
      ({ s with primeHistoryInFlight := false,
                seenLineIndex := (registerLines
                  { fresh := [], seenLineIndex := [], seenEvent := [] }
                  (hasAssistantResponseItem m.items) m.items).seenLineIndex,
                seenEvent := (registerLines
                  { fresh := [], seenLineIndex := [], seenEvent := [] }
                  (hasAssistantResponseItem m.items) m.items).seenEvent },
       tailHistoryItems m) := by
  simp [chunkRegisterPhase, resetHistoryTracking, h, tailHistoryItems]

/-- After an anchor=tail chunk the item list is exactly the parsed batch of
the message, independent of the prior state. -/
theorem handleHistoryChunk_tail_items (m : ChunkMsg) (s : EngineState)
    (h : m.anchor = some "tail") :
    (handleHistoryChunk m s).items = tailHistoryItems m := by
  unfold handleHistoryChunk
  rw [chunkIndexPhase_items]
  simp [chunkRegisterPhase, chunkBranchPhase, resetHistoryTracking, h,
    cancelPrimeFill, cancelPrimeHistory, tailHistoryItems]
  split <;> rfl

/-- Claim C2.  Delivering the same anchor=tail history chunk twice in a row
yields the same item list as delivering it once: the tail branch resets the
dedup sets and replaces the list wholesale, so the resulting items are a
function of the message alone. -/
theorem c2_tail_idempotent (m : ChunkMsg) (s : EngineState)
    (h : m.anchor = some "tail") :
    (handleHistoryChunk m (handleHistoryChunk m s)).items =
      (handleHistoryChunk m s).items := by
  rw [handleHistoryChunk_tail_items m _ h, handleHistoryChunk_tail_items m s h]

/-- Witness for the C2 theorem at a concrete truncated tail chunk. -/
theorem c2_tail_idempotent_witness :
    c3Chunk.anchor = some "tail" ∧
    (handleHistoryChunk c3Chunk (handleHistoryChunk c3Chunk freshEngineState)).items =
      (handleHistoryChunk c3Chunk freshEngineState).items :=
  ⟨rfl, c2_tail_idempotent c3Chunk freshEngineState rfl⟩

/-- Claim C3.  A tail response with truncated=true, a parsed batch smaller
than the 200-item target and a session message count at or below the
auto-fill threshold schedules exactly one follow-up before request: the
single prime-fill timer slot holds the 200ms debounce delay and the one
request for the remaining 200 minus fetched count entries anchored at the
chunk start index, the in-flight flag blocks rescheduling until that
request is answered, and nothing is written to the pending queue by the
handler itself. -/
theorem c3_tail_truncated_schedules_single_fill (m : ChunkMsg) (s : EngineState)
    (n c : Int)
    (hanchor : m.anchor = some "tail") (htrunc : m.truncated = true)
    (hstart : m.startIndex = some n)
    (hcount : ((tailHistoryItems m).length : Int) < HISTORY_TARGET_LIMIT)
    (hmc : messageCountFor s.sessions s.activeId = some c)
    (hc : c ≤ HISTORY_AUTO_FILL_THRESHOLD) :
    (handleHistoryChunk m s).primeFillTimer =
      some (200, { before := some n,
                   limit := some (HISTORY_TARGET_LIMIT - ((tailHistoryItems m).length : Int)) }) ∧
    (handleHistoryChunk m s).primeFillInFlight = true ∧
    (handleHistoryChunk m s).primeFillExpectedBefore = some n ∧
    (handleHistoryChunk m s).pendingHistoryRequests = s.pendingHistoryRequests := by
  have hcan : shouldAutoFillHistory s.sessions s.activeId = true := by
    simp [shouldAutoFillHistory, hmc, hc]
  unfold handleHistoryChunk
  rw [chunkRegisterPhase_eq_tail m s hanchor]
  simp [chunkBranchPhase, chunkIndexPhase, hanchor, cancelPrimeFill, cancelPrimeHistory,
    htrunc, hstart, hcount, hcan]

/-- Witness for the C3 theorem: a truncated two-line tail chunk for a
session of 100 messages schedules the debounced fill request. -/
theorem c3_tail_truncated_schedules_single_fill_witness :
    (handleHistoryChunk c3Chunk c3State).primeFillTimer =
      some (200, { before := some 40,
                   limit := some (HISTORY_TARGET_LIMIT - ((tailHistoryItems c3Chunk).length : Int)) }) ∧
    (handleHistoryChunk c3Chunk c3State).primeFillInFlight = true ∧
    (handleHistoryChunk c3Chunk c3State).primeFillExpectedBefore = some 40 ∧
    (handleHistoryChunk c3Chunk c3State).pendingHistoryRequests = c3State.pendingHistoryRequests :=
  c3_tail_truncated_schedules_single_fill c3Chunk c3State 40 100 rfl rfl rfl
    (by decide) (by decide) (by decide)

/-- appendReasoningDelta never moves the live index. -/
theorem appendReasoningDelta_liveIndex (d : String) (i : Int) (k : Option String)
    (s : EngineState) : (appendReasoningDelta d i k s).liveIndex = s.liveIndex := by
  unfold appendReasoningDelta
  dsimp only
  repeat' split <;> try rfl

/-- appendHistoryLines never moves the live index. -/
theorem appendHistoryLines_liveIndex (lines : List HistoryLine) (s : EngineState) :
    (appendHistoryLines lines s).liveIndex = s.liveIndex := rfl

/-- The session touch of a live event is the identity on the modelled
state: the rewritten fields are display metadata outside the model. -/
theorem updateSessionFromEvent_eq (s : EngineState) :
    updateSessionFromEvent s = s := by
  unfold updateSessionFromEvent
  split <;> simp

/-- The append dispatch of handleEvent never moves the live index. -/
theorem dispatchEventAppend_liveIndex (ev : Payload) (mt : Option String)
    (i : Int) (k : Option String) (s : EngineState) :
    (dispatchEventAppend ev mt i k s).liveIndex = s.liveIndex := by
  unfold dispatchEventAppend
  dsimp only
  split
  · split
    · rfl
    · exact appendReasoningDelta_liveIndex _ _ _ _
  · exact appendHistoryLines_liveIndex _ _

/-- The session touch preserves the live index and the history end. -/
theorem applyEventSessionTouch_live_end (mt : Option String) (s : EngineState) :
    (applyEventSessionTouch mt s).liveIndex = s.liveIndex ∧
    (applyEventSessionTouch mt s).historyEnd = s.historyEnd := by
  unfold applyEventSessionTouch
  split <;> exact ⟨rfl, rfl⟩

/-- The assigned index depends only on the live index and the history
end. -/
theorem nextAssignedIndex_congr (s1 s2 : EngineState)
    (h1 : s1.liveIndex = s2.liveIndex) (h2 : s1.historyEnd = s2.historyEnd) :
    nextAssignedIndex s1 = nextAssignedIndex s2 := by
  unfold nextAssignedIndex
  rw [h1, h2]

/-- A non-duplicate event advances the live index to one past the index it
assigns. -/
theorem handleEvent_liveIndex_of_fresh (e : EventMsg) (p : Payload) (s : EngineState)
    (he : e.event = some p)
    (hnd : (match eventKeyFromPayload p with
            | some k => if k = "" then false else decide (k ∈ s.seenEvent)
            | none => false) = false) :
    (handleEvent e s).liveIndex = some (nextAssignedIndex s + 1) := by
  unfold handleEvent
  rw [he]
  dsimp only
  simp only [hnd, Bool.false_eq_true, if_false]
  rw [dispatchEventAppend_liveIndex]
  have hs := applyEventSessionTouch_live_end (msgTypeOfEvent p)
    (applyEventActivity (msgTypeOfEvent p) (recordEventKey (eventKeyFromPayload p) s))
  have heq : nextAssignedIndex (applyEventSessionTouch (msgTypeOfEvent p)
      (applyEventActivity (msgTypeOfEvent p) (recordEventKey (eventKeyFromPayload p) s))) =
      nextAssignedIndex s := by
    apply nextAssignedIndex_congr
    · rw [hs.1]
      rfl
    · rw [hs.2]
      rfl
  dsimp only
  rw [heq]

/-- Every event either leaves the whole state unchanged (a duplicate or an
empty envelope) or advances the live index to the successor of the
assigned index. -/
theorem handleEvent_liveIndex_cases (e : EventMsg) (s : EngineState) :
    handleEvent e s = s ∨
    (handleEvent e s).liveIndex = some (nextAssignedIndex s + 1) := by
  cases he : e.event with
  | none =>
    left
    unfold handleEvent
    rw [he]
  | some p =>
    by_cases hd : (match eventKeyFromPayload p with
        | some k => if k = "" then false else decide (k ∈ s.seenEvent)
        | none => false) = true
    · left
      unfold handleEvent
      rw [he]
      dsimp only
      rw [hd]
      rfl
    · right
      exact handleEvent_liveIndex_of_fresh e p s he (by simpa using hd)

/-- dropEventDuplicates never moves the live index. -/
theorem dropEventDuplicates_liveIndex (s : EngineState) (h : List TimelineItem) :
    (dropEventDuplicates s h).liveIndex = s.liveIndex := rfl

/-- The register phase never moves the live index. -/
theorem chunkRegisterPhase_liveIndex (m : ChunkMsg) (s : EngineState) :
    (chunkRegisterPhase m s).1.liveIndex = s.liveIndex := by
  unfold chunkRegisterPhase
  dsimp only
  split <;> rfl

/-- The branch dispatch never moves the live index. -/
theorem chunkBranchPhase_liveIndex (m : ChunkMsg) (h : List TimelineItem)
    (s : EngineState) : (chunkBranchPhase m h s).liveIndex = s.liveIndex := by
  unfold chunkBranchPhase
  dsimp only
  repeat' split
  all_goals rfl

/-- Claim C9.  The next-live-index counter never decreases while a session
stays active: every non-duplicate live event is assigned the clamp of the
current counter and advances it by one, every duplicate or empty event
leaves it unchanged, a history chunk ending at index en advances it to
en + 1 exactly when the counter is not already past en, and a chunk without
an end index leaves it unchanged. -/
theorem c9_live_index_never_regresses (s : EngineState) (v : Int)
    (hv : s.liveIndex = some v) :
    (∀ e : EventMsg, ∃ w, (handleEvent e s).liveIndex = some w ∧ v ≤ w) ∧
    (∀ (e : EventMsg) (p : Payload), e.event = some p →
      (match eventKeyFromPayload p with
       | some k => if k = "" then false else decide (k ∈ s.seenEvent)
       | none => false) = false →
      (handleEvent e s).liveIndex = some (max 0 v + 1)) ∧
    (∀ (m : ChunkMsg) (en : Int), m.endIndex = some en →
      (handleHistoryChunk m s).liveIndex = some (if v ≤ en then en + 1 else v)) ∧
    (∀ m : ChunkMsg, m.endIndex = none →
      (handleHistoryChunk m s).liveIndex = some v) := by
  have hnext : nextAssignedIndex s = max 0 v := by
    simp [nextAssignedIndex, hv]
  have hchunk : ∀ m : ChunkMsg,
      (chunkBranchPhase m (chunkRegisterPhase m s).2 (chunkRegisterPhase m s).1).liveIndex = some v := by
    intro m
    rw [chunkBranchPhase_liveIndex, chunkRegisterPhase_liveIndex, hv]
  refine ⟨?_, ?_, ?_, ?_⟩
  · intro e
    rcases handleEvent_liveIndex_cases e s with h | h
    · exact ⟨v, by rw [h, hv], le_refl v⟩
    · refine ⟨nextAssignedIndex s + 1, h, ?_⟩
      rw [hnext]
      have := le_max_right (0 : Int) v
      omega
  · intro e p he hnd
    rw [handleEvent_liveIndex_of_fresh e p s he hnd, hnext]
  · intro m en hen
    unfold handleHistoryChunk
    simp only [chunkIndexPhase, hen, hchunk m]
    by_cases hle : v ≤ en
    · simp [hle]
    · simp [hle]
  · intro m hen
    unfold handleHistoryChunk
    simp only [chunkIndexPhase, hen, hchunk m]

/-- Witness for the C9 theorem: a fresh user event on a state whose counter
sits at 7 assigns index 7 and advances the counter to 8, and a chunk ending
at 3 leaves the counter at 7 while one ending at 9 advances it to 10. -/
theorem c9_live_index_never_regresses_witness :
    (handleEvent keylessUserEvent { freshEngineState with liveIndex := some 7 }).liveIndex =
      some (max 0 7 + 1) ∧
    (handleHistoryChunk { endIndex := some 3 } { freshEngineState with liveIndex := some 7 }).liveIndex =
      some (if (7 : Int) ≤ 3 then 3 + 1 else 7) := by
  have h := c9_live_index_never_regresses { freshEngineState with liveIndex := some 7 } 7 rfl
  exact ⟨h.2.1 keylessUserEvent _ rfl (by decide), h.2.2.1 { endIndex := some 3 } 3 rfl⟩

/-- The handshake-failure fallback only touches the handshake record and
the pending resume: the channel bookkeeping fields are untouched. -/
theorem handleHistoryHandshakeFailure_ws (s : EngineState) :
    (handleHistoryHandshakeFailure s).historyWsAttempt = s.historyWsAttempt ∧
    (handleHistoryHandshakeFailure s).historyWsOpen = s.historyWsOpen ∧
    (handleHistoryHandshakeFailure s).historyWsMode = s.historyWsMode ∧
    (handleHistoryHandshakeFailure s).historyWsDisabled = s.historyWsDisabled ∧
    (handleHistoryHandshakeFailure s).pendingHistoryRequests = s.pendingHistoryRequests := by
  refine ⟨?_, ?_, ?_, ?_, ?_⟩ <;>
    (unfold handleHistoryHandshakeFailure scheduleResume
     dsimp only
     repeat' split
     all_goals rfl)

/-- With the history socket ref null, sendHistoryRequest can only write to
the stream socket or enqueue. -/
theorem sendHistoryRequest_stream_only (r : HistoryRequestPayload) (s : EngineState)
    (h : s.historyWsOpen = none) :
    ∀ x ∈ (sendHistoryRequest r s).2, x.1 = SendChannel.stream := by
  unfold sendHistoryRequest
  have hh : historyWsIsOpen s = false := by
    simp [historyWsIsOpen, h]
  simp only [hh, Bool.false_eq_true, and_false, if_false]
  split <;> simp

/-- With the history socket ref null, the queue flush can only write to the
stream socket. -/
theorem flushPendingHistoryRequests_stream_only (s : EngineState)
    (h : s.historyWsOpen = none) :
    ∀ x ∈ (flushPendingHistoryRequests s).2, x.1 = SendChannel.stream := by
  unfold flushPendingHistoryRequests
  have hh : historyWsIsOpen s = false := by
    simp [historyWsIsOpen, h]
  split
  · simp
  · simp only [hh, Bool.false_eq_true, if_false]
    by_cases hm : s.historyWsMode = "initial" <;>
      by_cases hs2 : streamWsIsOpen s = true <;>
        simp [hm, hs2]

/-- The queue flush leaves the channel bookkeeping fields untouched. -/
theorem flushPendingHistoryRequests_state (s : EngineState) :
    (flushPendingHistoryRequests s).1.historyWsDisabled = s.historyWsDisabled ∧
    (flushPendingHistoryRequests s).1.historyWsOpen = s.historyWsOpen ∧
    (flushPendingHistoryRequests s).1.historyWsMode = s.historyWsMode := by
  refine ⟨?_, ?_, ?_⟩ <;>
    (unfold flushPendingHistoryRequests
     dsimp only
     repeat' split
     all_goals rfl)

/-- The register phase leaves the channel bookkeeping fields untouched. -/
theorem chunkRegisterPhase_ws (m : ChunkMsg) (s : EngineState) :
    (chunkRegisterPhase m s).1.historyWsDisabled = s.historyWsDisabled ∧
    (chunkRegisterPhase m s).1.historyWsOpen = s.historyWsOpen ∧
    (chunkRegisterPhase m s).1.historyWsMode = s.historyWsMode := by
  refine ⟨?_, ?_, ?_⟩ <;>
    (unfold chunkRegisterPhase
     dsimp only
     repeat' split
     all_goals rfl)

/-- The branch dispatch leaves the channel bookkeeping fields untouched. -/
theorem chunkBranchPhase_ws (m : ChunkMsg) (h : List TimelineItem) (s : EngineState) :
    (chunkBranchPhase m h s).historyWsDisabled = s.historyWsDisabled ∧
    (chunkBranchPhase m h s).historyWsOpen = s.historyWsOpen ∧
    (chunkBranchPhase m h s).historyWsMode = s.historyWsMode := by
  refine ⟨?_, ?_, ?_⟩ <;>
    (unfold chunkBranchPhase
     dsimp only
     repeat' split
     all_goals rfl)

/-- A history chunk delivery leaves the channel bookkeeping fields
untouched. -/
theorem handleHistoryChunk_ws (m : ChunkMsg) (s : EngineState) :
    (handleHistoryChunk m s).historyWsDisabled = s.historyWsDisabled ∧
    (handleHistoryChunk m s).historyWsOpen = s.historyWsOpen ∧
    (handleHistoryChunk m s).historyWsMode = s.historyWsMode := by
  unfold handleHistoryChunk
  refine ⟨?_, ?_, ?_⟩
  · rw [show (chunkIndexPhase m (chunkBranchPhase m (chunkRegisterPhase m s).2
      (chunkRegisterPhase m s).1)).historyWsDisabled = (chunkBranchPhase m (chunkRegisterPhase m s).2
      (chunkRegisterPhase m s).1).historyWsDisabled from rfl,
      (chunkBranchPhase_ws _ _ _).1, (chunkRegisterPhase_ws _ _).1]
  · rw [show (chunkIndexPhase m (chunkBranchPhase m (chunkRegisterPhase m s).2
      (chunkRegisterPhase m s).1)).historyWsOpen = (chunkBranchPhase m (chunkRegisterPhase m s).2
      (chunkRegisterPhase m s).1).historyWsOpen from rfl,
      (chunkBranchPhase_ws _ _ _).2.1, (chunkRegisterPhase_ws _ _).2.1]
  · rw [show (chunkIndexPhase m (chunkBranchPhase m (chunkRegisterPhase m s).2
      (chunkRegisterPhase m s).1)).historyWsMode = (chunkBranchPhase m (chunkRegisterPhase m s).2
      (chunkRegisterPhase m s).1).historyWsMode from rfl,
      (chunkBranchPhase_ws _ _ _).2.2, (chunkRegisterPhase_ws _ _).2.2]

/-- A live event delivery leaves the channel bookkeeping fields
untouched. -/
theorem handleEvent_ws (e : EventMsg) (s : EngineState) :
    (handleEvent e s).historyWsDisabled = s.historyWsDisabled ∧
    (handleEvent e s).historyWsOpen = s.historyWsOpen ∧
    (handleEvent e s).historyWsMode = s.historyWsMode := by
  refine ⟨?_, ?_, ?_⟩ <;>
    (unfold handleEvent dispatchEventAppend appendReasoningDelta appendHistoryLines
       applyEventSessionTouch
     dsimp only
     repeat' split
     all_goals rfl)

/-- Claim C4, counterexample.  After the second consecutive handshake
failure the close handler disables the dedicated history channel but does
not set the history mode to stream: on a state in initial mode the mode is
still initial afterwards, refuting the claimed historyMode transition. -/
theorem c4_double_failure_counterexample :
    (historyOnClose false true 1 c4State).1.historyWsMode ≠ "stream" ∧
    (historyOnClose false true 1 c4State).1.historyWsMode = "initial" ∧
    (historyOnClose false true 1 c4State).1.historyWsDisabled = true := by
  decide

/-- Claim C4, amended.  After a history channel handshake fails twice in a
row (a close before open on a state already carrying one failed attempt),
the channel marks itself disabled and closes; historyWsMode is left
unchanged rather than set to stream.  Every write the close handler flushes
goes to the streaming channel, every subsequent history request send from
the resulting state goes to the streaming channel or the queue and never to
a history channel, the connect guard refuses to reconnect, and chunk or
event deliveries never alter the disabled flag or reopen the socket. -/
theorem c4_double_failure_disables_history (s : EngineState) (retries : Nat)
    (hattempt : s.historyWsAttempt = 1) :
    (historyOnClose false true retries s).1.historyWsDisabled = true ∧
    (historyOnClose false true retries s).1.historyWsOpen = none ∧
    (historyOnClose false true retries s).1.historyWsMode = s.historyWsMode ∧
    (∀ x ∈ (historyOnClose false true retries s).2, x.1 = SendChannel.stream) ∧
    (∀ r : HistoryRequestPayload,
      ∀ x ∈ (sendHistoryRequest r (historyOnClose false true retries s).1).2,
        x.1 = SendChannel.stream) ∧
    historyConnect (historyOnClose false true retries s).1 =
      (historyOnClose false true retries s).1 ∧
    (∀ d : Delivery,
      (stepDelivery (historyOnClose false true retries s).1 d).historyWsDisabled = true ∧
      (stepDelivery (historyOnClose false true retries s).1 d).historyWsOpen = none) := by
  have hfail := handleHistoryHandshakeFailure_ws { s with historyWsOpen := none }
  have hcond : (handleHistoryHandshakeFailure { s with historyWsOpen := none }).historyWsAttempt + 1 ≥ 2 := by
    rw [hfail.1]
    simp [hattempt]
  have hkey : historyOnClose false true retries s =
      flushPendingHistoryRequests
        { handleHistoryHandshakeFailure { s with historyWsOpen := none } with
          historyWsAttempt :=
            (handleHistoryHandshakeFailure { s with historyWsOpen := none }).historyWsAttempt + 1,
          historyWsDisabled := true } := by
    unfold historyOnClose
    simp [hcond]
  have hflush := flushPendingHistoryRequests_state
    { handleHistoryHandshakeFailure { s with historyWsOpen := none } with
      historyWsAttempt :=
        (handleHistoryHandshakeFailure { s with historyWsOpen := none }).historyWsAttempt + 1,
      historyWsDisabled := true }
  have hdis : (historyOnClose false true retries s).1.historyWsDisabled = true := by
    rw [hkey, hflush.1]
  have hopen : (historyOnClose false true retries s).1.historyWsOpen = none := by
    rw [hkey, hflush.2.1]
    exact hfail.2.1
  have hmode : (historyOnClose false true retries s).1.historyWsMode = s.historyWsMode := by
    rw [hkey, hflush.2.2]
    exact hfail.2.2.1
  refine ⟨hdis, hopen, hmode, ?_, ?_, ?_, ?_⟩
  · rw [hkey]
    apply flushPendingHistoryRequests_stream_only
    exact hfail.2.1
  · intro r
    exact sendHistoryRequest_stream_only r _ hopen
  · unfold historyConnect
    rw [hdis]
    simp
  · intro d
    cases d with
    | chunk m =>
      refine ⟨?_, ?_⟩
      · rw [show stepDelivery (historyOnClose false true retries s).1 (Delivery.chunk m) =
          handleHistoryChunk m (historyOnClose false true retries s).1 from rfl,
          (handleHistoryChunk_ws m _).1, hdis]
      · rw [show stepDelivery (historyOnClose false true retries s).1 (Delivery.chunk m) =
          handleHistoryChunk m (historyOnClose false true retries s).1 from rfl,
          (handleHistoryChunk_ws m _).2.1, hopen]
    | event e =>
      refine ⟨?_, ?_⟩
      · rw [show stepDelivery (historyOnClose false true retries s).1 (Delivery.event e) =
          handleEvent e (historyOnClose false true retries s).1 from rfl,
          (handleEvent_ws e _).1, hdis]
      · rw [show stepDelivery (historyOnClose false true retries s).1 (Delivery.event e) =
          handleEvent e (historyOnClose false true retries s).1 from rfl,
          (handleEvent_ws e _).2.1, hopen]

/-- Witness for the amended C4 theorem at the concrete one-failure state. -/
theorem c4_double_failure_disables_history_witness :
    (historyOnClose false true 1 c4State).1.historyWsDisabled = true ∧
    ∀ x ∈ (sendHistoryRequest {} (historyOnClose false true 1 c4State).1).2,
      x.1 = SendChannel.stream :=
  ⟨(c4_double_failure_disables_history c4State 1 rfl).1,
   (c4_double_failure_disables_history c4State 1 rfl).2.2.2.2.1 {}⟩

/-- A truthy-keyless registration is the identity. -/
theorem recordEventKey_none (s : EngineState) : recordEventKey none s = s := rfl

/-- appendHistoryLines appends exactly the parsed, event-stamped batch. -/
theorem appendHistoryLines_items (lines : List HistoryLine) (s : EngineState) :
    (appendHistoryLines lines s).items =
      s.items ++ (parseHistoryItems lines).map (fun it => { it with origin := some "event" }) := by
  unfold appendHistoryLines
  dsimp only
  split
  · next hempty =>
    rw [List.isEmpty_iff] at hempty
    rw [hempty, List.append_nil]
  · rfl

/-- The session touch preserves the item list and the seen-key set. -/
theorem applyEventSessionTouch_items_seen (mt : Option String) (s : EngineState) :
    (applyEventSessionTouch mt s).items = s.items ∧
    (applyEventSessionTouch mt s).seenEvent = s.seenEvent := by
  unfold applyEventSessionTouch
  split <;> exact ⟨rfl, rfl⟩

/-- A keyless non-reasoning event bypasses the seen-key set entirely and
appends its parsed entries at the assigned index. -/
theorem handleEvent_keyless_step (e : EventMsg) (p : Payload) (s : EngineState)
    (he : e.event = some p)
    (hkey : eventKeyFromPayload p = none)
    (hmt : ¬ (msgTypeOfEvent p = some "agent_reasoning" ∨
              msgTypeOfEvent p = some "agent_reasoning_delta")) :
    (handleEvent e s).seenEvent = s.seenEvent ∧
    (handleEvent e s).items = s.items ++ eventEntriesFor p (nextAssignedIndex s) := by
  have hna : nextAssignedIndex (applyEventSessionTouch (msgTypeOfEvent p)
      (applyEventActivity (msgTypeOfEvent p) s)) = nextAssignedIndex s := by
    apply nextAssignedIndex_congr
    · rw [(applyEventSessionTouch_live_end _ _).1]
      rfl
    · rw [(applyEventSessionTouch_live_end _ _).2]
      rfl
  unfold handleEvent
  rw [he]
  dsimp only
  simp only [hkey]
  rw [recordEventKey_none]
  unfold dispatchEventAppend
  simp only [hmt, if_false, Bool.false_eq_true]
  constructor
  · rw [show ∀ (l : List HistoryLine) (t : EngineState), (appendHistoryLines l t).seenEvent = t.seenEvent from fun _ _ => rfl]
    dsimp only
    rw [(applyEventSessionTouch_items_seen _ _).2]
    rfl
  · rw [appendHistoryLines_items, hna]
    dsimp only
    rw [(applyEventSessionTouch_items_seen _ _).1]
    rfl

/-- Claim C10, counterexample.  A keyless reasoning delta (payload with
neither a string id nor an event_seq) delivered twice does not append its
entry twice: the second delta is coalesced into the first reasoning entry,
so the list holds one entry, not two. -/
theorem c10_keyless_reasoning_counterexample :
    eventKeyFromPayload
      ({ msg := some { type := some "agent_reasoning_delta", delta := some "x" } } : Payload) = none ∧
    (runDeliveries freshEngineState
      [Delivery.event keylessReasoningEvent]).items.length = 1 ∧
    (runDeliveries freshEngineState
      [Delivery.event keylessReasoningEvent, Delivery.event keylessReasoningEvent]).items.length = 1 := by
  decide

/-- Claim C10, amended.  A live event whose payload has neither a string id
nor an event_seq gets a null dedup key and bypasses the seen-key set
entirely; delivering the identical keyless envelope twice appends its
parsed timeline entries twice, at consecutive assigned indices, except for
reasoning deltas, which are coalesced into the existing reasoning entry
instead of appended again. -/
theorem c10_keyless_double_append (e : EventMsg) (p : Payload) (s : EngineState)
    (he : e.event = some p)
    (hkey : eventKeyFromPayload p = none)
    (hmt : ¬ (msgTypeOfEvent p = some "agent_reasoning" ∨
              msgTypeOfEvent p = some "agent_reasoning_delta")) :
    (handleEvent e s).seenEvent = s.seenEvent ∧
    (handleEvent e (handleEvent e s)).seenEvent = s.seenEvent ∧
    (handleEvent e s).items = s.items ++ eventEntriesFor p (nextAssignedIndex s) ∧
    (handleEvent e (handleEvent e s)).items =
      (s.items ++ eventEntriesFor p (nextAssignedIndex s)) ++
        eventEntriesFor p (nextAssignedIndex (handleEvent e s)) := by
  have h1 := handleEvent_keyless_step e p s he hkey hmt
  have h2 := handleEvent_keyless_step e p (handleEvent e s) he hkey hmt
  exact ⟨h1.1, by rw [h2.1, h1.1], h1.2, by rw [h2.2, h1.2]⟩

/-- Witness for the amended C10 theorem: the keyless user event appended
twice from the fresh state. -/
theorem c10_keyless_double_append_witness :
    (handleEvent keylessUserEvent (handleEvent keylessUserEvent freshEngineState)).items =
      (freshEngineState.items ++
        eventEntriesFor ({ msg := some { type := some "user_message", message := some "hello" } } : Payload)
          (nextAssignedIndex freshEngineState)) ++
        eventEntriesFor ({ msg := some { type := some "user_message", message := some "hello" } } : Payload)
          (nextAssignedIndex (handleEvent keylessUserEvent freshEngineState)) :=
  (c10_keyless_double_append keylessUserEvent
    { msg := some { type := some "user_message", message := some "hello" } }
    freshEngineState rfl (by decide) (by decide)).2.2.2

/-- The full effect of a session switch: every per-session field is reset
to its fresh value, the new session becomes active, last-requested and
pending-resume target, the dedicated history channel is disabled, and the
only surviving state is the sessions directory, the known ids, the token,
the local id counter, the history attempt counter and the two dormant
history timers whose callbacks are guarded by the disabled flag. -/
theorem switchSession_spec (b : String) (s : EngineState)
    (hne : ¬ (some b = s.activeId)) (hk : b ∈ s.knownSessionIds) :
    switchSession b s =
      { freshEngineState with
          sessions := s.sessions, knownSessionIds := s.knownSessionIds,
          token := s.token, localSeq := s.localSeq,
          historyWsAttempt := s.historyWsAttempt,
          historyRetryTimer := s.historyRetryTimer,
          historyConnectTimer := s.historyConnectTimer,
          activeId := some b, lastRequestedSession := some b,
          pendingResume := some b, historyWsMode := "stream",
          historyWsDisabled := true } := by
  have hstep : ∀ (pt : Option Nat) (sw : Option Bool),
      streamWatcherCleanup (loadSession b
        { freshEngineState with
            sessions := s.sessions, knownSessionIds := s.knownSessionIds,
            token := s.token, localSeq := s.localSeq,
            historyWsAttempt := s.historyWsAttempt,
            historyRetryTimer := s.historyRetryTimer,
            historyConnectTimer := s.historyConnectTimer,
            streamWsOpen := sw, primeHistoryTimer := pt,
            activeId := some b, lastRequestedSession := some b,
            pendingResume := some b, historyWsMode := "stream",
            historyWsDisabled := true }) =
      { freshEngineState with
          sessions := s.sessions, knownSessionIds := s.knownSessionIds,
          token := s.token, localSeq := s.localSeq,
          historyWsAttempt := s.historyWsAttempt,
          historyRetryTimer := s.historyRetryTimer,
          historyConnectTimer := s.historyConnectTimer,
          activeId := some b, lastRequestedSession := some b,
          pendingResume := some b, historyWsMode := "stream",
          historyWsDisabled := true } := by
    intro pt sw
    unfold loadSession streamWatcherCleanup scheduleResume cancelPrimeFill
      cancelPrimeHistory resetActivity
    dsimp only
    split <;> rfl
  have hact : activateSession (some b) s =
      { freshEngineState with
          sessions := s.sessions, knownSessionIds := s.knownSessionIds,
          token := s.token, localSeq := s.localSeq,
          historyWsAttempt := s.historyWsAttempt,
          historyRetryTimer := s.historyRetryTimer,
          historyConnectTimer := s.historyConnectTimer,
          streamWsOpen := s.streamWsOpen,
          primeHistoryTimer := (if s.primeHistoryTimer.isSome then s.primeHistoryTimer else some 50),
          activeId := some b, lastRequestedSession := some b,
          pendingResume := some b, historyWsMode := "stream",
          historyWsDisabled := true } := by
    unfold activateSession setHistoryWsModeForSession closeHistorySocket
      scheduleResume schedulePrimeHistory cancelPrimeFill resetHistoryTracking
      resetActivity freshEngineState
    dsimp only
    rw [if_neg hne]
    by_cases hw : s.historyWsOpen.isSome <;> by_cases hp : s.primeHistoryTimer.isSome <;>
      simp [hk, hw, hp]
  unfold switchSession
  rw [hact, hstep]

/-- Claim C7.  Switching the active session from A to B cancels the pending
prime and fill timers, discards the pending history-request queue, empties
the item list, and re-targets the resume poll at B so that a surviving poll
tick for A refuses to act.  Moreover the post-switch state is identical for
any two pre-switch states of A agreeing on the fields the switch does not
overwrite (directory, token, id counter, attempt counter, dormant guarded
timers), so the entire subsequent evolution under any deliveries is
independent of everything session A put into the engine: no entry from A
can appear at any point after the switch. -/
theorem c7_switch_discards_session_state (a b : String) (s1 s2 : EngineState)
    (hab : a ≠ b)
    (ha1 : s1.activeId = some a) (ha2 : s2.activeId = some a)
    (hk1 : b ∈ s1.knownSessionIds)
    (hkeq : s1.knownSessionIds = s2.knownSessionIds)
    (hsess : s1.sessions = s2.sessions)
    (htok : s1.token = s2.token)
    (hseq : s1.localSeq = s2.localSeq)
    (hatt : s1.historyWsAttempt = s2.historyWsAttempt)
    (hretry : s1.historyRetryTimer = s2.historyRetryTimer)
    (hconn : s1.historyConnectTimer = s2.historyConnectTimer) :
    (switchSession b s1).items = [] ∧
    (switchSession b s1).pendingHistoryRequests = [] ∧
    (switchSession b s1).primeFillTimer = none ∧
    (switchSession b s1).primeFillInFlight = false ∧
    (switchSession b s1).primeHistoryTimer = none ∧
    (switchSession b s1).pendingResume = some b ∧
    (attemptResume a true (switchSession b s1)).2 = false ∧
    switchSession b s1 = switchSession b s2 ∧
    ∀ ds : List Delivery,
      runDeliveries (switchSession b s1) ds = runDeliveries (switchSession b s2) ds := by
  have hne1 : ¬ (some b = s1.activeId) := by
    rw [ha1]
    intro h
    exact hab (Option.some.inj h).symm
  have hne2 : ¬ (some b = s2.activeId) := by
    rw [ha2]
    intro h
    exact hab (Option.some.inj h).symm
  have h1 := switchSession_spec b s1 hne1 hk1
  have h2 := switchSession_spec b s2 hne2 (hkeq ▸ hk1)
  have heq : switchSession b s1 = switchSession b s2 := by
    rw [h1, h2, hsess, htok, hseq, hatt, hretry, hconn, hkeq]
  have hpr : (switchSession b s1).pendingResume ≠ some a := by
    rw [h1]
    intro h
    exact hab (Option.some.inj h).symm
  refine ⟨by rw [h1]; try rfl, by rw [h1]; try rfl, by rw [h1]; try rfl,
    by rw [h1]; try rfl, by rw [h1]; try rfl, by rw [h1]; try rfl, ?_, heq,
    fun ds => by rw [heq]⟩
  unfold attemptResume
  rw [if_pos hpr]

/-- Witness for the C7 theorem at two concrete mid-session states of A. -/
theorem c7_switch_discards_session_state_witness :
    (switchSession "B" c7StateOne).items = [] ∧
    switchSession "B" c7StateOne = switchSession "B" c7StateTwo :=
  ⟨(c7_switch_discards_session_state "A" "B" c7StateOne c7StateTwo (by decide) rfl rfl
      (by decide) rfl rfl rfl rfl rfl rfl rfl).1,
   (c7_switch_discards_session_state "A" "B" c7StateOne c7StateTwo (by decide) rfl rfl
      (by decide) rfl rfl rfl rfl rfl rfl rfl).2.2.2.2.2.2.2.1⟩


/-! Infrastructure for the duplicate-key invariant: key nonemptiness and
seen-set membership lemmas. -/

theorem eventKeyFromPayload_ne_empty (p : Payload) (k : String)
    (h : eventKeyFromPayload p = some k) : k ≠ "" := by
  unfold eventKeyFromPayload at h
  dsimp only at h
  split at h
  · exact absurd h (by simp)
  · have hk : optStr p.id ++ ":" ++ optStr p.eventSeq = k := Option.some.inj h
    intro hke
    have hlen := congrArg String.length hk
    rw [hke] at hlen
    rw [String.length_append, String.length_append] at hlen
    have h1 : (":" : String).length = 1 := rfl
    have h0 : ("" : String).length = 0 := rfl
    rw [h1, h0] at hlen
    omega

theorem mem_addUnique_of_mem (l : List String) (k x : String) (h : x ∈ l) :
    x ∈ addUnique l k := by
  unfold addUnique
  split
  · exact h
  · exact List.mem_append_left _ h

theorem self_mem_addUnique (l : List String) (k : String) : k ∈ addUnique l k := by
  unfold addUnique
  split
  · assumption
  · exact List.mem_append_right _ (List.mem_singleton_self k)

theorem itemKeyOk_mono (S T : List String) (it : TimelineItem)
    (hST : ∀ x ∈ S, x ∈ T) (h : itemKeyOk S it) : itemKeyOk T it := by
  intro k hk
  obtain ⟨h1, h2⟩ := h k hk
  exact ⟨hST k h1, h2⟩

theorem lineKeyOk_mono (S T : List String) (l : HistoryLine)
    (hST : ∀ x ∈ S, x ∈ T) (h : lineKeyOk S l) : lineKeyOk T l := by
  intro he k hk
  obtain ⟨h1, h2⟩ := h he k hk
  exact ⟨hST k h1, h2⟩

theorem sharedKeyOnlyHistory_symm : Symmetric sharedKeyOnlyHistory := by
  intro a b h
  unfold sharedKeyOnlyHistory at h ⊢
  cases ha : a.eventKey with
  | none => cases hb : b.eventKey <;> trivial
  | some k1 =>
    cases hb : b.eventKey with
    | none => trivial
    | some k2 =>
      rw [ha, hb] at h
      intro hkk
      obtain ⟨h1, h2⟩ := h hkk.symm
      exact ⟨h2, h1⟩

theorem pairwise_allHistory (l : List TimelineItem)
    (h : ∀ it ∈ l, it.origin = some "history") :
    List.Pairwise sharedKeyOnlyHistory l := by
  induction l with
  | nil => exact List.Pairwise.nil
  | cons a rest ih =>
    refine List.Pairwise.cons ?_ (ih (fun it hit => h it (List.mem_cons_of_mem a hit)))
    intro b hb
    unfold sharedKeyOnlyHistory
    cases a.eventKey with
    | none => trivial
    | some k1 =>
      cases b.eventKey with
      | none => trivial
      | some k2 =>
        intro _
        exact ⟨h a (List.mem_cons_self a rest), h b (List.mem_cons_of_mem a hb)⟩

theorem pairwise_set_of_rel {α : Type} (R : α → α → Prop) (l : List α) (i : Nat) (x : α)
    (hp : List.Pairwise R l)
    (hx : ∀ j, (hj : j < l.length) → j ≠ i → R x (l.get ⟨j, hj⟩) ∧ R (l.get ⟨j, hj⟩) x) :
    List.Pairwise R (l.set i x) := by
  rw [List.pairwise_iff_getElem] at hp ⊢
  intro a b ha hb hab
  rw [List.length_set] at ha hb
  rw [List.getElem_set, List.getElem_set]
  by_cases hia : i = a
  · subst hia
    rw [if_pos rfl, if_neg (Nat.ne_of_gt hab).symm]
    exact (hx b hb (Nat.ne_of_gt hab)).1
  · rw [if_neg hia]
    by_cases hib : i = b
    · subst hib
      rw [if_pos rfl]
      exact (hx a ha (fun h => hia h.symm)).2
    · rw [if_neg hib]
      exact hp a b ha hb hab

theorem mem_pushUnique (st : ParseState) (item it : TimelineItem)
    (h : it ∈ (pushUnique st item).items) : it ∈ st.items ∨ it = item := by
  unfold pushUnique at h
  dsimp only at h
  split at h
  · exact Or.inl h
  · rcases List.mem_append.mp h with h1 | h1
    · exact Or.inl h1
    · exact Or.inr (List.mem_singleton.mp h1)

theorem foldl_items_mem {α : Type} (P : TimelineItem → Prop)
    (g : ParseState → α → ParseState) :
    ∀ (l : List α), (∀ acc, ∀ a ∈ l, ∀ it ∈ (g acc a).items, it ∈ acc.items ∨ P it) →
    ∀ (st : ParseState), ∀ it ∈ (l.foldl g st).items, it ∈ st.items ∨ P it := by
  intro l
  induction l with
  | nil => intro _ st it h; exact Or.inl h
  | cons a rest ih =>
    intro hg st it h
    rw [List.foldl_cons] at h
    rcases ih (fun acc b hb => hg acc b (List.mem_cons_of_mem a hb)) (g st a) it h with h1 | h1
    · exact hg st a (List.mem_cons_self a rest) it h1
    · exact Or.inr h1

theorem parseEventSimpleItem_eventKey (index : Option Int) (key : Option String)
    (mt : String) (msg : Msg) :
    ∀ it, parseEventSimpleItem index key mt msg = some it → it.eventKey = key := by
  intro it
  unfold parseEventSimpleItem
  by_cases h1 : mt = "user_message"
  · rw [if_pos h1]; intro h; cases h; rfl
  · rw [if_neg h1]
    by_cases h2 : mt = "agent_message"
    · rw [if_pos h2]; intro h; cases h; rfl
    · rw [if_neg h2]
      by_cases h3 : mt = "task_started" ∨ mt = "task_complete" ∨ mt = "turn_aborted"
      · rw [if_pos h3]; intro h; cases h; rfl
      · rw [if_neg h3]
        by_cases h4 : mt = "exec_command_begin"
        · rw [if_pos h4]; intro h; cases h; rfl
        · rw [if_neg h4]
          by_cases h5 : mt = "exec_command_output_delta"
          · rw [if_pos h5]; intro h; cases h; rfl
          · rw [if_neg h5]
            by_cases h6 : mt = "exec_command_end"
            · rw [if_pos h6]; intro h; cases h; rfl
            · rw [if_neg h6]
              by_cases h7 : mt = "turn_diff"
              · rw [if_pos h7]; intro h; cases h; rfl
              · rw [if_neg h7]
                by_cases h8 : mt = "patch_apply_begin" ∨ mt = "patch_apply_end"
                · rw [if_pos h8]; intro h; cases h; rfl
                · rw [if_neg h8]
                  by_cases h9 : mt = "background_event"
                  · rw [if_pos h9]; intro h; cases h; rfl
                  · rw [if_neg h9]
                    by_cases h10 : mt = "web_search_begin" ∨ mt = "web_search_complete"
                    · rw [if_pos h10]; intro h; cases h; rfl
                    · rw [if_neg h10]
                      by_cases h11 : mt = "browser_screenshot_update"
                      · rw [if_pos h11]; intro h; cases h; rfl
                      · rw [if_neg h11]
                        by_cases h12 : mt = "mcp_tool_call_begin" ∨ mt = "mcp_tool_call_end"
                        · rw [if_pos h12]; intro h; cases h; rfl
                        · rw [if_neg h12]
                          by_cases h13 : mt = "custom_tool_call_begin" ∨ mt = "custom_tool_call_update" ∨ mt = "custom_tool_call_end"
                          · rw [if_pos h13]; intro h; cases h; rfl
                          · rw [if_neg h13]
                            intro h
                            cases h

theorem parseReasoningStep_keys (S : List String) (st : ParseState) (index : Option Int)
    (key : Option String) (msg : Msg)
    (hkey : ∀ k, key = some k → k ∈ S ∧ k ≠ "")
    (hst : ∀ it ∈ st.items, itemKeyOk S it) :
    ∀ it ∈ (parseReasoningStep st index key msg).items, itemKeyOk S it := by
  intro it hit
  unfold parseReasoningStep at hit
  dsimp only at hit
  split at hit
  · exact hst it hit
  · split at hit
    · rename_i last hlast
      split at hit
      · dsimp only at hit
        rcases List.mem_append.mp hit with h1 | h1
        · exact hst it (List.dropLast_subset st.items h1)
        · have h2 := List.mem_singleton.mp h1
          subst h2
          intro k hk
          exact hst last (List.mem_of_mem_getLast? hlast) k hk
      · rcases mem_pushUnique _ _ it hit with h1 | h1
        · exact hst it h1
        · subst h1
          intro k hk
          exact hkey k hk
    · rcases mem_pushUnique _ _ it hit with h1 | h1
      · exact hst it h1
      · subst h1
        intro k hk
        exact hkey k hk

theorem parseEventStep_keys (S : List String) (st : ParseState) (index : Option Int)
    (p : Payload)
    (hkey : ∀ k, eventKeyFromPayload p = some k → k ∈ S ∧ k ≠ "")
    (hst : ∀ it ∈ st.items, itemKeyOk S it) :
    ∀ it ∈ (parseEventStep st index p).items, itemKeyOk S it := by
  intro it hit
  unfold parseEventStep at hit
  dsimp only at hit
  split at hit
  · exact hst it hit
  · split at hit
    · exact hst it hit
    · split at hit
      · exact parseReasoningStep_keys S st index _ _ hkey hst it hit
      · split at hit
        · rename_i item hitem
          rcases mem_pushUnique _ _ it hit with h1 | h1
          · exact hst it h1
          · subst h1
            intro k hk
            rw [parseEventSimpleItem_eventKey _ _ _ _ _ hitem] at hk
            exact hkey k hk
        · exact hst it hit

theorem parseResponseStep_keys (S : List String) (st : ParseState) (index : Option Int)
    (p : Payload)
    (hst : ∀ it ∈ st.items, itemKeyOk S it) :
    ∀ it ∈ (parseResponseStep st index p).items, itemKeyOk S it := by
  intro it hit
  unfold parseResponseStep at hit
  dsimp only at hit
  split at hit
  · rcases mem_pushUnique _ _ it hit with h1 | h1
    · exact hst it h1
    · subst h1
      intro k hk
      cases hk
  · split at hit
    · rcases mem_pushUnique _ _ it hit with h1 | h1
      · exact hst it h1
      · subst h1
        intro k hk
        cases hk
    · have hmem := foldl_items_mem (fun x => x.eventKey = none) _ _
        (by
          intro acc a _ x hx
          split at hx
          · rcases mem_pushUnique _ _ x hx with h1 | h1
            · exact Or.inl h1
            · subst h1
              exact Or.inr rfl
          · exact Or.inl hx) _ it hit
      rcases hmem with h1 | h1
      · split at h1
        · exact hst it h1
        · rcases mem_pushUnique _ _ it h1 with h2 | h2
          · exact hst it h2
          · subst h2
            intro k hk
            cases hk
      · intro k hk
        rw [h1] at hk
        cases hk

theorem parseLineStep_keys (S : List String) (st : ParseState) (l : HistoryLine)
    (hst : ∀ it ∈ st.items, itemKeyOk S it) (hl : lineKeyOk S l) :
    ∀ it ∈ (parseLineStep st l).items, itemKeyOk S it := by
  intro it hit
  unfold parseLineStep at hit
  dsimp only at hit
  split at hit
  · rename_i heq
    exact parseEventStep_keys S st l.index _ (hl heq) hst it hit
  · split at hit
    · exact parseResponseStep_keys S st l.index _ hst it hit
    · exact hst it hit

theorem parse_fold_keys (S : List String) :
    ∀ (lines : List HistoryLine) (st : ParseState),
      (∀ l ∈ lines, lineKeyOk S l) →
      (∀ it ∈ st.items, itemKeyOk S it) →
      ∀ it ∈ (lines.foldl parseLineStep st).items, itemKeyOk S it := by
  intro lines
  induction lines with
  | nil => intro st _ hst; exact hst
  | cons a rest ih =>
    intro st hl hst
    rw [List.foldl_cons]
    exact ih (parseLineStep st a) (fun l h => hl l (List.mem_cons_of_mem a h))
      (parseLineStep_keys S st a hst (hl a (List.mem_cons_self a rest)))

theorem parseHistoryItems_keys (S : List String) (lines : List HistoryLine)
    (hl : ∀ l ∈ lines, lineKeyOk S l) :
    ∀ it ∈ parseHistoryItems lines, itemKeyOk S it := by
  unfold parseHistoryItems
  exact parse_fold_keys S lines {} hl (by intro it h; exact absurd h (List.not_mem_nil it))

theorem registerKeepLine_seen_mono (b : Bool) (st : RegisterState) (l : HistoryLine) :
    ∀ x ∈ st.seenEvent, x ∈ (registerKeepLine b st l).seenEvent := by
  intro x hx
  unfold registerKeepLine
  dsimp only
  split
  · split
    · exact hx
    · exact mem_addUnique_of_mem _ _ _ hx
  · exact hx

theorem registerKeepLine_key_in (b : Bool) (st : RegisterState) (l : HistoryLine) :
    lineKeyOk (registerKeepLine b st l).seenEvent l := by
  intro he k hk
  refine ⟨?_, eventKeyFromPayload_ne_empty _ k hk⟩
  unfold registerKeepLine
  dsimp only
  rw [if_pos he, hk]
  dsimp only
  rw [if_neg (eventKeyFromPayload_ne_empty _ k hk)]
  exact self_mem_addUnique _ _

theorem registerKeepLine_fresh_sub (b : Bool) (st : RegisterState) (l l0 : HistoryLine)
    (h : l0 ∈ (registerKeepLine b st l).fresh) : l0 ∈ st.fresh ∨ l0 = l := by
  unfold registerKeepLine at h
  dsimp only at h
  split at h
  all_goals split at h
  all_goals try exact Or.inl h
  all_goals rcases List.mem_append.mp h with h1 | h1
  all_goals try exact Or.inl h1
  all_goals exact Or.inr (List.mem_singleton.mp h1)

theorem registerKeepLine_fresh_ok (b : Bool) (st : RegisterState) (l : HistoryLine)
    (hst : ∀ l0 ∈ st.fresh, lineKeyOk st.seenEvent l0) :
    ∀ l0 ∈ (registerKeepLine b st l).fresh,
      lineKeyOk (registerKeepLine b st l).seenEvent l0 := by
  intro l0 hl0
  rcases registerKeepLine_fresh_sub b st l l0 hl0 with h1 | h1
  · exact lineKeyOk_mono _ _ l0 (registerKeepLine_seen_mono b st l) (hst l0 h1)
  · subst h1
    exact registerKeepLine_key_in b st l0

theorem registerLineStep_cases (b : Bool) (st : RegisterState) (l : HistoryLine) :
    registerLineStep b st l = st ∨ registerLineStep b st l = registerKeepLine b st l := by
  unfold registerLineStep
  split
  · split
    · exact Or.inl rfl
    · exact Or.inr rfl
  · exact Or.inr rfl

theorem registerLineStep_seen_mono (b : Bool) (st : RegisterState) (l : HistoryLine) :
    ∀ x ∈ st.seenEvent, x ∈ (registerLineStep b st l).seenEvent := by
  rcases registerLineStep_cases b st l with h | h <;> rw [h]
  · exact fun x hx => hx
  · exact registerKeepLine_seen_mono b st l

theorem registerLineStep_fresh_ok (b : Bool) (st : RegisterState) (l : HistoryLine)
    (hst : ∀ l0 ∈ st.fresh, lineKeyOk st.seenEvent l0) :
    ∀ l0 ∈ (registerLineStep b st l).fresh,
      lineKeyOk (registerLineStep b st l).seenEvent l0 := by
  rcases registerLineStep_cases b st l with h | h <;> rw [h]
  · exact hst
  · exact registerKeepLine_fresh_ok b st l hst

theorem registerLines_seen_mono (b : Bool) :
    ∀ (lines : List HistoryLine) (st : RegisterState),
      ∀ x ∈ st.seenEvent, x ∈ (registerLines st b lines).seenEvent := by
  intro lines
  induction lines with
  | nil => intro st x hx; exact hx
  | cons a rest ih =>
    intro st x hx
    unfold registerLines at ih ⊢
    rw [List.foldl_cons]
    exact ih (registerLineStep b st a) x (registerLineStep_seen_mono b st a x hx)

theorem registerLines_fresh_ok (b : Bool) :
    ∀ (lines : List HistoryLine) (st : RegisterState),
      (∀ l0 ∈ st.fresh, lineKeyOk st.seenEvent l0) →
      ∀ l0 ∈ (registerLines st b lines).fresh,
        lineKeyOk (registerLines st b lines).seenEvent l0 := by
  intro lines
  induction lines with
  | nil => intro st hst; exact hst
  | cons a rest ih =>
    intro st hst
    unfold registerLines at ih ⊢
    rw [List.foldl_cons]
    exact ih (registerLineStep b st a) (registerLineStep_fresh_ok b st a hst)

theorem dropEventDuplicates_seenEvent (s : EngineState) (H : List TimelineItem) :
    (dropEventDuplicates s H).seenEvent = s.seenEvent := rfl

theorem dropEventDuplicates_items_sub (s : EngineState) (H : List TimelineItem) :
    ∀ it ∈ (dropEventDuplicates s H).items, it ∈ s.items := by
  intro it hit
  unfold dropEventDuplicates at hit
  dsimp only at hit
  split at hit
  · exact hit
  · exact List.mem_of_mem_filter hit

theorem dropEventDuplicates_pairwise (R : TimelineItem → TimelineItem → Prop)
    (s : EngineState) (H : List TimelineItem)
    (hp : List.Pairwise R s.items) : List.Pairwise R (dropEventDuplicates s H).items := by
  unfold dropEventDuplicates
  dsimp only
  split
  · exact hp
  · exact List.Pairwise.filter _ hp

theorem dropEventDuplicates_no_clash (s : EngineState) (H : List TimelineItem)
    (it : TimelineItem) (hit : it ∈ (dropEventDuplicates s H).items)
    (horig : it.origin = some "event") (k : String) (hk : it.eventKey = some k)
    (hne : k ≠ "") (a : TimelineItem) (ha : a ∈ H) (hak : a.eventKey = some k) : False := by
  have h1 : k ∈ H.filterMap (fun x => x.eventKey) := List.mem_filterMap.mpr ⟨a, ha, hak⟩
  have h2 : k ∈ (H.filterMap (fun x => x.eventKey)).filter (fun x => x ≠ "") :=
    List.mem_filter.mpr ⟨h1, by simp [hne]⟩
  unfold dropEventDuplicates at hit
  dsimp only at hit
  split at hit
  · rename_i hcond
    rcases hcond with hc | hc
    · rw [List.isEmpty_iff] at hc
      rw [hc] at hit
      exact absurd hit (List.not_mem_nil it)
    · rw [List.isEmpty_iff] at hc
      rw [hc] at ha
      exact absurd ha (List.not_mem_nil a)
  · have hpred := List.of_mem_filter hit
    simp only [horig, hk] at hpred
    rw [if_neg hne] at hpred
    simp only [beq_self_eq_true, not_true, if_false, decide_eq_true_eq] at hpred
    rw [if_pos h2] at hpred
    exact Bool.false_ne_true hpred

theorem pushUnique_empty (item : TimelineItem) :
    (pushUnique {} item).items = [item] := by
  unfold pushUnique
  rw [if_neg (List.not_mem_nil _)]
  rfl

theorem parseEventStep_empty (idx : Option Int) (p : Payload) :
    (parseEventStep {} idx p).items.length ≤ 1 ∧
    ∀ it ∈ (parseEventStep {} idx p).items, it.eventKey = eventKeyFromPayload p := by
  unfold parseEventStep
  dsimp only
  split
  · exact ⟨by simp, fun it h => absurd h (List.not_mem_nil it)⟩
  · split
    · exact ⟨by simp, fun it h => absurd h (List.not_mem_nil it)⟩
    · split
      · unfold parseReasoningStep
        dsimp only
        split
        · exact ⟨by simp, fun it h => absurd h (List.not_mem_nil it)⟩
        · simp only [List.getLast?_nil]
          rw [pushUnique_empty]
          refine ⟨by simp, ?_⟩
          intro it h
          rw [List.mem_singleton.mp h]
      · split
        · rename_i item hitem
          rw [pushUnique_empty]
          refine ⟨by simp, ?_⟩
          intro it h
          rw [List.mem_singleton.mp h]
          exact parseEventSimpleItem_eventKey _ _ _ _ item hitem
        · exact ⟨by simp, fun it h => absurd h (List.not_mem_nil it)⟩



theorem parseHistoryItems_single (i : Int) (p : Payload) :
    parseHistoryItems [{ index := some i, type := "event", payload := p, value := none }] =
      (parseEventStep {} (some i) p).items := by
  unfold parseHistoryItems
  rw [List.foldl_cons, List.foldl_nil]
  unfold parseLineStep
  dsimp only
  have he : (extractEntry ⟨some i, "event", p, none⟩).type = "event" := rfl
  rw [if_pos he]
  rfl

theorem eventLine_items_spec (i : Int) (p : Payload) :
    (parseHistoryItems [{ index := some i, type := "event", payload := p, value := none }]).length ≤ 1 ∧
    ∀ it ∈ parseHistoryItems [{ index := some i, type := "event", payload := p, value := none }],
      it.eventKey = eventKeyFromPayload p := by
  rw [parseHistoryItems_single]
  exact parseEventStep_empty (some i) p

theorem pairwise_of_length_le_one {α : Type} (R : α → α → Prop) (l : List α)
    (h : l.length ≤ 1) : List.Pairwise R l := by
  match l with
  | [] => exact List.Pairwise.nil
  | [a] => exact List.pairwise_singleton R a
  | a :: b :: t =>
    simp [List.length_cons] at h

theorem pairwise_getElem_of_ne (l : List TimelineItem)
    (hP : List.Pairwise sharedKeyOnlyHistory l) (a b : Nat)
    (ha : a < l.length) (hb : b < l.length) (hab : a ≠ b) :
    sharedKeyOnlyHistory (l.get ⟨a, ha⟩) (l.get ⟨b, hb⟩) := by
  rcases Nat.lt_or_ge a b with h | h
  · exact List.pairwise_iff_getElem.mp hP a b ha hb h
  · have hba : b < a := Nat.lt_of_le_of_ne h (fun he => hab he.symm)
    exact sharedKeyOnlyHistory_symm (List.pairwise_iff_getElem.mp hP b a hb ha hba)

theorem engineInv_appendReasoningDelta (d : String) (ai : Int) (key : Option String)
    (s : EngineState)
    (hK : KeysTracked s.seenEvent s.items)
    (hO : OriginsOk s.items)
    (hP : DupKeysOnlyHistory s.items)
    (hkeyseen : ∀ k, key = some k → k ∈ s.seenEvent ∧ k ≠ "")
    (hnotold : ∀ k, key = some k → ∀ it ∈ s.items, it.eventKey ≠ some k) :
    EngineInv (appendReasoningDelta d ai key s) := by
  unfold appendReasoningDelta
  dsimp only
  split
  · exact ⟨hK, hO, hP⟩
  · split
    · split
      · rename_i tv t htgt sc current hcur
        have hlt : t < s.items.length := (List.get?_eq_some.mp hcur).1
        have hcmem : current ∈ s.items := List.get?_mem hcur
        have hcget : s.items.get ⟨t, hlt⟩ = current := (List.get?_eq_some.mp hcur).2
        refine ⟨?_, ?_, ?_⟩
        · intro it hit k hk
          rcases List.mem_or_eq_of_mem_set hit with h1 | h1
          · exact hK it h1 k hk
          · subst h1
            dsimp only at hk
            cases hce : current.eventKey with
            | some k0 =>
              rw [hce] at hk
              dsimp only at hk
              rw [← Option.some.inj hk]
              exact hK current hcmem k0 hce
            | none =>
              rw [hce] at hk
              dsimp only at hk
              exact hkeyseen k hk
        · intro it hit
          rcases List.mem_or_eq_of_mem_set hit with h1 | h1
          · exact hO it h1
          · subst h1
            dsimp only
            cases hco : current.origin with
            | some o =>
              have := hO current hcmem
              rw [hco] at this
              dsimp only
              exact this
            | none =>
              dsimp only
              exact Or.inr rfl
        · dsimp only
          refine pairwise_set_of_rel sharedKeyOnlyHistory s.items t _ hP ?_
          intro j hj hjt
          have hymem : s.items.get ⟨j, hj⟩ ∈ s.items := List.get_mem s.items j hj
          have hrel1 : sharedKeyOnlyHistory current (s.items.get ⟨j, hj⟩) := by
            rw [← hcget]
            exact pairwise_getElem_of_ne s.items hP t j hlt hj (fun he => hjt he.symm)
          have hrel2 : sharedKeyOnlyHistory (s.items.get ⟨j, hj⟩) current := by
            rw [← hcget]
            exact pairwise_getElem_of_ne s.items hP j t hj hlt hjt
          constructor
          · unfold sharedKeyOnlyHistory at hrel1 ⊢
            dsimp only
            cases hce : current.eventKey with
            | some k0 =>
              rw [hce] at hrel1
              dsimp only
              cases hy : (s.items.get ⟨j, hj⟩).eventKey with
              | none => trivial
              | some k2 =>
                rw [hy] at hrel1
                intro heq
                obtain ⟨hc, hyo⟩ := hrel1 heq
                refine ⟨?_, hyo⟩
                rw [hc]
            | none =>
              dsimp only
              cases hkey : key with
              | none => dsimp only
              | some k =>
                cases hy : (s.items.get ⟨j, hj⟩).eventKey with
                | none => trivial
                | some k2 =>
                  intro heq
                  exact absurd (hy.trans (congrArg some heq.symm))
                    (hnotold k hkey _ hymem)
          · unfold sharedKeyOnlyHistory at hrel2 ⊢
            dsimp only
            cases hy : (s.items.get ⟨j, hj⟩).eventKey with
            | none => trivial
            | some k2 =>
              cases hce : current.eventKey with
              | some k0 =>
                rw [hce] at hrel2
                rw [hy] at hrel2
                dsimp only
                intro heq
                obtain ⟨hyo, hc⟩ := hrel2 heq
                refine ⟨hyo, ?_⟩
                rw [hc]
              | none =>
                dsimp only
                cases hkey : key with
                | none => dsimp only
                | some k =>
                  intro heq
                  exact absurd (hy.trans (congrArg some heq))
                    (hnotold k hkey _ hymem)
      · exact ⟨hK, hO, hP⟩
    · refine ⟨?_, ?_, ?_⟩
      · intro it hit k hk
        rcases List.mem_append.mp hit with h1 | h1
        · exact hK it h1 k hk
        · rw [List.mem_singleton.mp h1] at hk
          exact hkeyseen k hk
      · intro it hit
        rcases List.mem_append.mp hit with h1 | h1
        · exact hO it h1
        · rw [List.mem_singleton.mp h1]
          exact Or.inr rfl
      · unfold DupKeysOnlyHistory
        dsimp only
        rw [List.pairwise_append]
        refine ⟨hP, List.pairwise_singleton _ _, ?_⟩
        intro a ha b hb
        unfold sharedKeyOnlyHistory
        rw [List.mem_singleton.mp hb]
        dsimp only
        cases hak : a.eventKey with
        | none => trivial
        | some k1 =>
          cases hkey : key with
          | none => trivial
          | some k =>
            intro heq
            exact absurd (hak.trans (congrArg some heq))
              (hnotold k hkey a ha)

theorem engineInv_dispatchEventAppend (ev : Payload) (mt : Option String)
    (ai : Int) (key : Option String) (s : EngineState)
    (hkey : key = eventKeyFromPayload ev)
    (hK : KeysTracked s.seenEvent s.items)
    (hO : OriginsOk s.items)
    (hP : DupKeysOnlyHistory s.items)
    (hkeyseen : ∀ k, key = some k → k ∈ s.seenEvent ∧ k ≠ "")
    (hnotold : ∀ k, key = some k → ∀ it ∈ s.items, it.eventKey ≠ some k) :
    EngineInv (dispatchEventAppend ev mt ai key s) := by
  unfold dispatchEventAppend
  split
  · dsimp only
    split
    · exact ⟨hK, hO, hP⟩
    · exact engineInv_appendReasoningDelta _ ai key s hK hO hP hkeyseen hnotold
  · unfold appendHistoryLines
    dsimp only
    obtain ⟨hlen, hkeys⟩ := eventLine_items_spec ai ev
    split
    · exact ⟨hK, hO, hP⟩
    · refine ⟨?_, ?_, ?_⟩
      · intro it hit k hk
        rcases List.mem_append.mp hit with h1 | h1
        · exact hK it h1 k hk
        · obtain ⟨x, hx, hxit⟩ := List.mem_map.mp h1
          rw [← hxit] at hk
          dsimp only at hk
          rw [hkeys x hx, ← hkey] at hk
          exact hkeyseen k hk
      · intro it hit
        rcases List.mem_append.mp hit with h1 | h1
        · exact hO it h1
        · obtain ⟨x, hx, hxit⟩ := List.mem_map.mp h1
          rw [← hxit]
          exact Or.inr rfl
      · unfold DupKeysOnlyHistory
        dsimp only
        rw [List.pairwise_append]
        refine ⟨hP, pairwise_of_length_le_one _ _ (by rw [List.length_map]; exact hlen), ?_⟩
        intro a ha b hb
        obtain ⟨x, hx, hxb⟩ := List.mem_map.mp hb
        unfold sharedKeyOnlyHistory
        cases hak : a.eventKey with
        | none => trivial
        | some k1 =>
          cases hbk : b.eventKey with
          | none => trivial
          | some k2 =>
            intro heq
            have hbkey : b.eventKey = key := by
              rw [← hxb]
              dsimp only
              rw [hkeys x hx, ← hkey]
            rw [hbk] at hbkey
            exact absurd (hak.trans (congrArg some heq))
              (hnotold k2 hbkey.symm a ha)

theorem recordEventKey_items (key : Option String) (s : EngineState) :
    (recordEventKey key s).items = s.items := rfl

theorem recordEventKey_seen_mono (key : Option String) (s : EngineState) :
    ∀ x ∈ s.seenEvent, x ∈ (recordEventKey key s).seenEvent := by
  intro x hx
  unfold recordEventKey
  dsimp only
  split
  · split
    · exact hx
    · exact mem_addUnique_of_mem _ _ _ hx
  · exact hx

theorem recordEventKey_seen_self (k : String) (s : EngineState)
    (hne : k ≠ "") :
    k ∈ (recordEventKey (some k) s).seenEvent := by
  unfold recordEventKey
  dsimp only
  rw [if_neg hne]
  exact self_mem_addUnique _ _

theorem applyEventActivity_items (mt : Option String) (s : EngineState) :
    (applyEventActivity mt s).items = s.items := rfl

theorem applyEventActivity_seen (mt : Option String) (s : EngineState) :
    (applyEventActivity mt s).seenEvent = s.seenEvent := rfl

theorem engineInv_handleEvent (m : EventMsg) (s : EngineState)
    (h : EngineInv s) : EngineInv (handleEvent m s) := by
  obtain ⟨hK, hO, hP⟩ := h
  unfold handleEvent
  split
  · exact ⟨hK, hO, hP⟩
  · rename_i ev hev
    dsimp only
    split
    · exact ⟨hK, hO, hP⟩
    · rename_i hdup
      have hnotseen : ∀ k, eventKeyFromPayload ev = some k → k ∉ s.seenEvent := by
        intro k hk hmem
        rw [hk] at hdup
        dsimp only at hdup
        rw [if_neg (eventKeyFromPayload_ne_empty ev k hk)] at hdup
        exact hdup (decide_eq_true hmem)
      apply engineInv_dispatchEventAppend _ _ _ _ _ rfl
      · rw [(applyEventSessionTouch_items_seen _ _).1,
            (applyEventSessionTouch_items_seen _ _).2,
            applyEventActivity_items, applyEventActivity_seen, recordEventKey_items]
        intro it hit k hk
        obtain ⟨h1, h2⟩ := hK it hit k hk
        exact ⟨recordEventKey_seen_mono _ s k h1, h2⟩
      · rw [(applyEventSessionTouch_items_seen _ _).1,
            applyEventActivity_items, recordEventKey_items]
        exact hO
      · rw [(applyEventSessionTouch_items_seen _ _).1,
            applyEventActivity_items, recordEventKey_items]
        exact hP
      · intro k hk
        rw [(applyEventSessionTouch_items_seen _ _).2, applyEventActivity_seen]
        refine ⟨?_, eventKeyFromPayload_ne_empty ev k hk⟩
        rw [hk]
        exact recordEventKey_seen_self k s (eventKeyFromPayload_ne_empty ev k hk)
      · intro k hk it hit
        rw [(applyEventSessionTouch_items_seen _ _).1,
            applyEventActivity_items, recordEventKey_items] at hit
        intro hitk
        exact hnotseen k hk ((hK it hit k hitk).1)

theorem chunkIndexPhase_seenEvent (m : ChunkMsg) (s : EngineState) :
    (chunkIndexPhase m s).seenEvent = s.seenEvent := rfl

theorem chunkRegisterPhase_items_eq (m : ChunkMsg) (s : EngineState) :
    (chunkRegisterPhase m s).1.items = s.items := by
  unfold chunkRegisterPhase
  dsimp only
  split <;> rfl

theorem chunkRegisterPhase_hist_origin (m : ChunkMsg) (s : EngineState) :
    ∀ it ∈ (chunkRegisterPhase m s).2, it.origin = some "history" := by
  intro it hit
  unfold chunkRegisterPhase at hit
  dsimp only at hit
  obtain ⟨x, hx, hxit⟩ := List.mem_map.mp hit
  rw [← hxit]

theorem regParse_keys (b : Bool) (li : List Int) (se : List String)
    (lines : List HistoryLine) :
    ∀ x ∈ parseHistoryItems (registerLines ⟨[], li, se⟩ b lines).fresh,
      itemKeyOk (registerLines ⟨[], li, se⟩ b lines).seenEvent x := by
  have hfr := registerLines_fresh_ok b lines ⟨[], li, se⟩
    (by intro l0 h0; exact absurd h0 (List.not_mem_nil l0))
  exact parseHistoryItems_keys _ _ hfr

theorem chunkRegisterPhase_keys (m : ChunkMsg) (s : EngineState) :
    ∀ it ∈ (chunkRegisterPhase m s).2,
      itemKeyOk (chunkRegisterPhase m s).1.seenEvent it := by
  intro it hit
  unfold chunkRegisterPhase at hit ⊢
  dsimp only at hit ⊢
  intro k hk
  obtain ⟨x, hx, hxit⟩ := List.mem_map.mp hit
  rw [← hxit] at hk
  dsimp only at hk
  exact regParse_keys _ _ _ m.items x hx k hk

theorem chunkRegisterPhase_seen_mono (m : ChunkMsg) (s : EngineState)
    (hna : ¬(m.anchor = some "head" ∨ m.anchor = some "tail")) :
    ∀ x ∈ s.seenEvent, x ∈ (chunkRegisterPhase m s).1.seenEvent := by
  intro x hx
  unfold chunkRegisterPhase
  dsimp only
  rw [if_neg hna]
  exact registerLines_seen_mono _ m.items _ x hx

theorem engineInv_prepend_dedup (x : EngineState) (H : List TimelineItem)
    (hHorig : ∀ it ∈ H, it.origin = some "history")
    (hHkeys : ∀ it ∈ H, itemKeyOk x.seenEvent it)
    (hxK : KeysTracked x.seenEvent x.items)
    (hxO : OriginsOk x.items)
    (hxP : DupKeysOnlyHistory x.items) :
    KeysTracked x.seenEvent (H ++ (dropEventDuplicates x H).items) ∧
    OriginsOk (H ++ (dropEventDuplicates x H).items) ∧
    DupKeysOnlyHistory (H ++ (dropEventDuplicates x H).items) := by
  refine ⟨?_, ?_, ?_⟩
  · intro it hit k hk
    rcases List.mem_append.mp hit with h1 | h1
    · exact hHkeys it h1 k hk
    · exact hxK it (dropEventDuplicates_items_sub x H it h1) k hk
  · intro it hit
    rcases List.mem_append.mp hit with h1 | h1
    · exact Or.inl (hHorig it h1)
    · exact hxO it (dropEventDuplicates_items_sub x H it h1)
  · unfold DupKeysOnlyHistory
    rw [List.pairwise_append]
    refine ⟨pairwise_allHistory H hHorig,
      dropEventDuplicates_pairwise _ x H hxP, ?_⟩
    intro a ha b hb
    unfold sharedKeyOnlyHistory
    cases hak : a.eventKey with
    | none => trivial
    | some k1 =>
      cases hbk : b.eventKey with
      | none => trivial
      | some k2 =>
        intro heq
        refine ⟨hHorig a ha, ?_⟩
        rcases hxO b (dropEventDuplicates_items_sub x H b hb) with hbo | hbo
        · exact hbo
        · exfalso
          have hk2ne : k2 ≠ "" := by
            have h3 := hHkeys a ha k1 hak
            rw [heq] at h3
            exact h3.2
          exact dropEventDuplicates_no_clash x H b hb hbo k2 hbk hk2ne a ha
            (hak.trans (congrArg some heq))

theorem engineInv_chunkBranchPhase (m : ChunkMsg) (H : List TimelineItem)
    (x : EngineState)
    (hHorig : ∀ it ∈ H, it.origin = some "history")
    (hHkeys : ∀ it ∈ H, itemKeyOk x.seenEvent it)
    (hxK : ¬(m.anchor = some "head" ∨ m.anchor = some "tail") →
      KeysTracked x.seenEvent x.items ∧ OriginsOk x.items ∧
      DupKeysOnlyHistory x.items) :
    EngineInv (chunkBranchPhase m H x) := by
  unfold chunkBranchPhase
  dsimp only
  split
  · exact ⟨hHkeys, fun it hit => Or.inl (hHorig it hit), pairwise_allHistory H hHorig⟩
  · split
    · split
      · exact ⟨hHkeys, fun it hit => Or.inl (hHorig it hit), pairwise_allHistory H hHorig⟩
      · exact ⟨hHkeys, fun it hit => Or.inl (hHorig it hit), pairwise_allHistory H hHorig⟩
    · rename_i hnh hnt
      obtain ⟨hxK, hxO, hxP⟩ := hxK (by rintro (h | h) <;> [exact hnh h; exact hnt h])
      split
      · split
        · exact engineInv_prepend_dedup _ H hHorig hHkeys hxK hxO hxP
        · exact engineInv_prepend_dedup _ H hHorig hHkeys hxK hxO hxP
      · split
        · have hcore := engineInv_prepend_dedup x H hHorig hHkeys hxK hxO hxP
          split
          · refine ⟨?_, ?_, ?_⟩
            · intro it hit k hk
              dsimp only at hit
              exact hcore.1 it (List.perm_append_comm.subset hit) k hk
            · intro it hit
              dsimp only at hit
              exact hcore.2.1 it (List.perm_append_comm.subset hit)
            · show List.Pairwise sharedKeyOnlyHistory
                ((dropEventDuplicates x H).items ++ H)
              exact (List.perm_append_comm.pairwise_iff
                (fun h => sharedKeyOnlyHistory_symm h)).mpr hcore.2.2
          · rename_i t hfind
            have hperm : List.Perm
                ((dropEventDuplicates x H).items.take t ++ H ++
                  (dropEventDuplicates x H).items.drop t)
                (H ++ (dropEventDuplicates x H).items) := by
              refine (List.Perm.append_right _ List.perm_append_comm).trans ?_
              rw [List.append_assoc, List.take_append_drop]
            refine ⟨?_, ?_, ?_⟩
            · intro it hit k hk
              dsimp only at hit
              exact hcore.1 it (hperm.subset hit) k hk
            · intro it hit
              dsimp only at hit
              exact hcore.2.1 it (hperm.subset hit)
            · show List.Pairwise sharedKeyOnlyHistory
                ((dropEventDuplicates x H).items.take t ++ H ++
                  (dropEventDuplicates x H).items.drop t)
              exact (hperm.pairwise_iff
                (fun h => sharedKeyOnlyHistory_symm h)).mpr hcore.2.2
        · exact ⟨hxK, hxO, hxP⟩

theorem engineInv_handleHistoryChunk (m : ChunkMsg) (s : EngineState)
    (h : EngineInv s) : EngineInv (handleHistoryChunk m s) := by
  obtain ⟨hK, hO, hP⟩ := h
  unfold handleHistoryChunk
  have hidx : ∀ x : EngineState, EngineInv x → EngineInv (chunkIndexPhase m x) := by
    intro x hx
    unfold EngineInv at hx ⊢
    rw [chunkIndexPhase_items, chunkIndexPhase_seenEvent]
    exact hx
  apply hidx
  apply engineInv_chunkBranchPhase m _ _
    (chunkRegisterPhase_hist_origin m s) (chunkRegisterPhase_keys m s)
  intro hna
  have hitems := chunkRegisterPhase_items_eq m s
  rw [hitems]
  refine ⟨?_, hO, hP⟩
  intro it hit k hk
  obtain ⟨h1, h2⟩ := hK it hit k hk
  exact ⟨chunkRegisterPhase_seen_mono m s hna k h1, h2⟩

instance (a b : TimelineItem) : Decidable (bothKeyedEqual a b) := by
  unfold bothKeyedEqual
  infer_instance

theorem engineInv_stepDelivery (s : EngineState) (d : Delivery)
    (h : EngineInv s) : EngineInv (stepDelivery s d) := by
  cases d with
  | chunk m => exact engineInv_handleHistoryChunk m s h
  | event m => exact engineInv_handleEvent m s h

theorem engineInv_runDeliveries (ds : List Delivery) :
    ∀ s : EngineState, EngineInv s → EngineInv (runDeliveries s ds) := by
  induction ds with
  | nil => intro s h; exact h
  | cons d rest ih =>
    intro s h
    unfold runDeliveries at ih ⊢
    rw [List.foldl_cons]
    exact ih (stepDelivery s d) (engineInv_stepDelivery s d h)

theorem engineInv_fresh : EngineInv freshEngineState :=
  ⟨fun it hit => absurd hit (List.not_mem_nil it),
   fun it hit => absurd hit (List.not_mem_nil it),
   List.Pairwise.nil⟩

/-- Claim C1, counterexample.  The claimed invariant fails: a single tail
chunk whose two lines sit at distinct rollout indices but carry the same
event identity (id a, event_seq 1) passes the index-based line dedup of
registerHistoryLines, and the parser emits one timeline entry per line, so
the final item list holds two entries that both carry the non-null
eventKey a:1. -/
theorem c1_duplicate_event_keys_counterexample :
    ¬ NoDuplicateEventKeys (runDeliveries freshEngineState [Delivery.chunk dupChunk]).items ∧
    ((runDeliveries freshEngineState [Delivery.chunk dupChunk]).items.map
      (fun it => it.eventKey)) = [some "a:1", some "a:1"] := by
  constructor
  · unfold NoDuplicateEventKeys
    decide
  · decide

/-- Claim C1, amended.  What the engine does guarantee, for every delivery
sequence from the freshly reset state: two entries sharing a non-null
eventKey can only both be history-origin entries.  A live (event-origin)
entry never shares its key with any other entry, because handleEvent drops
events whose key is already in the seen set, every retained key is
recorded there, and dropEventDuplicates removes live entries whose key
reappears in a fetched history batch before that batch is merged. -/
theorem c1_duplicate_keys_only_within_history (ds : List Delivery) :
    DupKeysOnlyHistory (runDeliveries freshEngineState ds).items :=
  (engineInv_runDeliveries ds freshEngineState engineInv_fresh).2.2

end CodeWebui
